import Mathlib

/-!
Verification of the cache attach/detach core of lvm2's
`lib/metadata/cache_manip.c` (`lv_cache_create` and `lv_cache_remove`).

The volume/segment graph is embedded as an association list of logical
volumes indexed by stable identifiers.  External collaborators (segment-type
lookup, metadata write/commit, suspend/resume, policy and dirty-block
queries, activation) are modelled by oracles that decide the outcome of each
call; every call is recorded in an event trace so that ordering properties
of the two operations can be stated over traces.
-/

namespace CacheManip

/-- Names used by the source as string constants.  They are bound here once
so the development refers to them by name. -/
def cacheStr : String := "cache"

/-- The "error" (placeholder) segment-type name. -/
def errorStr : String := "error"

/-- The "striped" segment-type name used by the layering primitive. -/
def stripedStr : String := "striped"

/-- The flush-only cache policy name. -/
def cleanerStr : String := "cleaner"

/-- The reserved suffix appended to the origin name for the hidden layer. -/
def corigStr : String := "_corig"

/-- Status flag set of a logical volume.  Modelled from the spec: the
bitmask constants (`CACHE`, `CACHE_POOL`, ..., visibility) live in metadata
headers outside this excerpt; each relevant bit is one boolean field. -/
structure LVStatus where
  cache : Bool := false
  cache_pool : Bool := false
  cache_pool_data : Bool := false
  cache_pool_metadata : Bool := false
  visible : Bool := true
  deriving Repr, DecidableEq

/-- A segment (`struct lv_segment`): type handle (none models a NULL
handle), extent length, optional cache-pool reference, cache policy fields
and the ordered sub-volume list (`seg_lv`).  A NULL `policy_argv` is
modelled as the empty list. -/
structure LVSeg where
  segtype : Option String := none
  len : Nat := 0
  pool_lv : Option Nat := none
  policy_name : Option String := none
  policy_argc : Nat := 0
  policy_argv : List String := []
  areas : List Nat := []
  deriving Repr, DecidableEq

/-- A logical volume (`struct logical_volume`): name, status flags, ordered
segment list, total extent count, and the back-reference set
(`segs_using_this_lv`), recorded as the ids of the volumes owning a segment
that maps onto this one. -/
structure LV where
  name : String
  status : LVStatus := {}
  segments : List LVSeg := []
  le_count : Nat := 0
  segs_using : List Nat := []
  deriving Repr, DecidableEq

/-- The volume group: an association list from volume id to volume. -/
structure VG where
  lvs : List (Nat × LV)
  deriving Repr, DecidableEq

/-- Look a volume up by id. -/
def VG.find (vg : VG) (i : Nat) : Option LV :=
  (vg.lvs.find? (fun p => p.1 == i)).map (fun p => p.2)

/-- Replace (upsert) the volume with id `i`. -/
def VG.set (vg : VG) (i : Nat) (lv : LV) : VG :=
  ⟨(i, lv) :: vg.lvs.filter (fun p => p.1 != i)⟩

/-- Delete the volume with id `i`. -/
def VG.removeLV (vg : VG) (i : Nat) : VG :=
  ⟨vg.lvs.filter (fun p => p.1 != i)⟩

/-- `lv_is_cache`: the CACHE status bit is set. -/
def lv_is_cache (lv : LV) : Bool := lv.status.cache

/-- `lv_is_cache_pool`: the CACHE_POOL status bit is set. -/
def lv_is_cache_pool (lv : LV) : Bool := lv.status.cache_pool

/-- `lv_is_cache_type`: any of the cache-related status bits is set. -/
def lv_is_cache_type (lv : LV) : Bool :=
  lv.status.cache || lv.status.cache_pool ||
  lv.status.cache_pool_data || lv.status.cache_pool_metadata

/-- `lv_set_visible`: set the visibility flag. -/
def lv_set_visible (lv : LV) : LV :=
  { lv with status := { lv.status with visible := true } }

/-- One external call made by the core, with its outcome. -/
inductive Event where
  | policyInfo (res : Option String)
  | blockInfo (res : Option Nat)
  | sleepEv
  | vgWrite (ok : Bool)
  | suspendLV (lv : Nat) (ok : Bool)
  | vgCommit (ok : Bool)
  | resumeLV (lv : Nat) (ok : Bool)
  | getSegtype (nm : String) (found : Bool)
  | insertLayer (ok : Bool)
  | attachPool (ok : Bool)
  | detachPool
  | setVisible
  | removeSegUsing
  | moveSegments
  | addVirtualSegment (segtype : Option String) (len : Nat)
  | activateLV (lv : Nat) (ok : Bool)
  | deactivateLV (lv : Nat) (ok : Bool)
  | lvRemoveEv (lv : Nat) (ok : Bool)
  deriving Repr, DecidableEq

/-- Modelled from the spec: `insert_layer_for_lv` (a volume-graph primitive
outside this excerpt) inserts a hidden layering volume beneath `lvid`: a new
hidden volume `newId`, named by appending `suffix`, takes over the segments
and extent count of `lvid`; `lvid` is left with a single new striped segment
mapping onto the layer and (per the source call site, which passes the
`CACHE` status) gets its CACHE bit set; the layer records the back-reference.
Fails if `lvid` is absent or `newId` is already taken. -/
def insert_layer_for_lv (vg : VG) (lvid newId : Nat) (suffix : String) :
    Option VG :=
  match vg.find lvid, vg.find newId with
  | some lvw, none =>
    let layer : LV :=
      { name := lvw.name ++ suffix
        status := { visible := false }
        segments := lvw.segments
        le_count := lvw.le_count
        segs_using := [lvid] }
    let topSeg : LVSeg :=
      { segtype := some stripedStr, len := lvw.le_count, areas := [newId] }
    let lvw2 : LV :=
      { lvw with status := { lvw.status with cache := true }
                 segments := [topSeg] }
    some ((vg.set newId layer).set lvid lvw2)
  | _, _ => none

/-- Modelled from the spec: `attach_pool_lv` attaches the pool reference to
the first segment of `lvid` and records the back-reference on the pool. -/
def attach_pool_lv (vg : VG) (lvid pid : Nat) : Option VG :=
  match vg.find lvid with
  | none => none
  | some lv =>
    match lv.segments with
    | [] => none
    | s :: rest =>
      let vg1 := vg.set lvid { lv with segments := { s with pool_lv := some pid } :: rest }
      match vg1.find pid with
      | none => none
      | some pool =>
        some (vg1.set pid { pool with segs_using := pool.segs_using ++ [lvid] })

/-- Modelled from the spec: `detach_pool_lv` breaks the cache-segment and
pool relation: clears the first segment's pool reference and removes the
back-reference entry from the pool; fails when the reference or the
back-reference entry is missing. -/
def detach_pool_lv (vg : VG) (lvid : Nat) : Option VG :=
  match vg.find lvid with
  | none => none
  | some lv =>
    match lv.segments with
    | [] => none
    | s :: rest =>
      match s.pool_lv with
      | none => none
      | some pid =>
        let vg1 := vg.set lvid { lv with segments := { s with pool_lv := none } :: rest }
        match vg1.find pid with
        | none => none
        | some pool =>
          if lvid ∈ pool.segs_using then
            some (vg1.set pid { pool with segs_using := pool.segs_using.erase lvid })
          else none

/-- Modelled from the spec: `remove_seg_from_segs_using_this_lv` removes the
back-reference entry for the segment owned by `ownerId` from `lvid`'s users
set; fails when no such entry exists. -/
def remove_seg_from_segs_using_this_lv (vg : VG) (lvid ownerId : Nat) :
    Option VG :=
  match vg.find lvid with
  | none => none
  | some lv =>
    if ownerId ∈ lv.segs_using then
      some (vg.set lvid { lv with segs_using := lv.segs_using.erase ownerId })
    else none

/-- Modelled from the spec: `move_lv_segments` moves all segments (and the
extent count) from `fromId` onto `toId`, leaving `fromId` empty.  Both call
sites in the source pass `set_status = reset_status = 0`, so the per-segment
status rewrite is the identity and is omitted. -/
def move_lv_segments (vg : VG) (toId fromId : Nat) : Option VG :=
  match vg.find toId, vg.find fromId with
  | some lvTo, some lvFrom =>
    let vg1 := vg.set toId { lvTo with segments := lvFrom.segments, le_count := lvFrom.le_count }
    match vg1.find fromId with
    | none => none
    | some lvFrom1 => some (vg1.set fromId { lvFrom1 with segments := [], le_count := 0 })
  | _, _ => none

/-- Modelled from the spec: `lv_add_virtual_segment` appends a placeholder
segment of `len` extents with the given segment-type handle to `lvid`; the
primitive (outside this excerpt) rejects a missing segment-type handle. -/
def lv_add_virtual_segment (vg : VG) (lvid : Nat) (len : Nat)
    (segt : Option String) : Option VG :=
  match segt with
  | none => none
  | some t =>
    match vg.find lvid with
    | none => none
    | some lv =>
      some (vg.set lvid
        { lv with segments := lv.segments ++ [{ segtype := some t, len := len }]
                  le_count := lv.le_count + len })

/-- Modelled from the spec: `lv_remove` deletes the volume's metadata. -/
def lv_remove (vg : VG) (lvid : Nat) : VG := vg.removeLV lvid

/-- Outcomes of the four steps of one commit-protocol cycle. -/
structure CycleOutcome where
  writeOk : Bool
  suspendOk : Bool
  commitOk : Bool
  resumeOk : Bool
  deriving Repr, DecidableEq

/-- Oracle for the external calls made by `lv_cache_create`. -/
structure COracle where
  cacheSegtypeOk : Bool
  insertLayerOk : Bool
  attachPoolOk : Bool
  deriving Repr, DecidableEq

/-- Oracle for the external calls made by `lv_cache_remove`: the policy
query result (`none` = the query fails), the dirty-block count returned by
the k-th block query, the outcomes of the two commit cycles, and the
outcomes of the remaining per-volume calls. -/
structure ROracle where
  policyName : Option String
  dirty : Nat → Option Nat
  cycle1 : CycleOutcome
  cycle2 : CycleOutcome
  errorSegtypeOk : Bool
  resumePoolOk : Bool
  activateOk : Bool
  deactivateOk : Bool
  lvRemoveOk : Bool

/-- Which step of a commit cycle failed. -/
inductive CycleErr where
  | writeFail
  | suspendFail
  | commitFail
  | resumeFail
  deriving Repr, DecidableEq

/-- Distinct failure exits of `lv_cache_remove`.  `badState` marks
embedding-level lookups that cannot fail in C (a pointer dereference). -/
inductive RemoveErr where
  | badState
  | notCache
  | policyInfoFail
  | cycleA (e : CycleErr)
  | blockInfoFail
  | detachPoolFail
  | removeSegFail
  | moveSegFail
  | addVirtFail
  | cycleB (e : CycleErr)
  | resumePoolFail
  | activateFail
  | deactivateFail
  | lvRemoveFail
  deriving Repr, DecidableEq

/-- The four successful protocol events of one cycle, in source order. -/
def cycleEvents (lvid : Nat) : List Event :=
  [Event.vgWrite true, Event.suspendLV lvid true,
   Event.vgCommit true, Event.resumeLV lvid true]

/-- One commit-protocol cycle: `vg_write`; `suspend_lv`; `vg_commit`;
`resume_lv` (cache_manip.c lines 140-147 and 187-207), stopping at the
first failing step. -/
def commitCycle (c : CycleOutcome) (lvid : Nat) :
    List Event × Option CycleErr :=
  if !c.writeOk then ([Event.vgWrite false], some CycleErr.writeFail)
  else if !c.suspendOk then
    ([Event.vgWrite true, Event.suspendLV lvid false], some CycleErr.suspendFail)
  else if !c.commitOk then
    ([Event.vgWrite true, Event.suspendLV lvid true, Event.vgCommit false],
     some CycleErr.commitFail)
  else if !c.resumeOk then
    ([Event.vgWrite true, Event.suspendLV lvid true, Event.vgCommit true,
      Event.resumeLV lvid false], some CycleErr.resumeFail)
  else (cycleEvents lvid, none)

/-- Lines 124-148 of `lv_cache_remove`: query the cache policy name; if it
is not "cleaner", swap the first segment's policy to "cleaner" with cleared
arguments and run one commit cycle to make the change live. -/
def policyPhase (o : ROracle) (vg : VG) (cid : Nat) :
    List Event × VG × Option RemoveErr :=
  match o.policyName with
  | none => ([Event.policyInfo none], vg, some RemoveErr.policyInfoFail)
  | some pn =>
    if pn = cleanerStr then ([Event.policyInfo (some pn)], vg, none)
    else
      match vg.find cid with
      | none => ([Event.policyInfo (some pn)], vg, some RemoveErr.badState)
      | some clv =>
        match clv.segments with
        | [] => ([Event.policyInfo (some pn)], vg, some RemoveErr.badState)
        | s :: rest =>
          let s2 : LVSeg :=
            { s with policy_name := some cleanerStr, policy_argc := 0, policy_argv := [] }
          let vg1 := vg.set cid { clv with segments := s2 :: rest }
          let cyc := commitCycle o.cycle1 cid
          (Event.policyInfo (some pn) :: cyc.1, vg1, cyc.2.map RemoveErr.cycleA)

/-- The dirty-block polling loop, lines 151-159: query the dirty count with
index `k`; sleep and requery while it is nonzero; exit at zero.  `fuel`
bounds the number of queries; `none` means the loop did not finish. -/
def flushLoop (o : ROracle) : Nat → Nat → Option (List Event × Option RemoveErr)
  | 0, _ => none
  | fuel + 1, k =>
    match o.dirty k with
    | none => some ([Event.blockInfo none], some RemoveErr.blockInfoFail)
    | some d =>
      if d = 0 then some ([Event.blockInfo (some d)], none)
      else
        match flushLoop o fuel (k + 1) with
        | none => none
        | some (tr, r) => some (Event.blockInfo (some d) :: Event.sleepEv :: tr, r)

/-- Lines 161-185 of `lv_cache_remove`: record the pool, detach it, make the
hidden origin visible, drop its back-reference, move its segments onto the
top-level volume, clear the CACHE bit, and install the "error" placeholder
segment (whose segment-type lookup result is used without a check).  On
success returns the pool id and hidden-origin id for the later phases. -/
def graphSurgery (o : ROracle) (vg : VG) (cid : Nat) :
    List Event × VG × Except RemoveErr (Nat × Nat) :=
  match vg.find cid with
  | none => ([], vg, Except.error RemoveErr.badState)
  | some clv =>
    match clv.segments with
    | [] => ([], vg, Except.error RemoveErr.badState)
    | cseg :: _ =>
      match cseg.pool_lv with
      | none => ([Event.detachPool], vg, Except.error RemoveErr.detachPoolFail)
      | some pid =>
        match detach_pool_lv vg cid with
        | none => ([Event.detachPool], vg, Except.error RemoveErr.detachPoolFail)
        | some vg1 =>
          match cseg.areas.head? with
          | none => ([Event.detachPool], vg1, Except.error RemoveErr.badState)
          | some oid =>
            match vg1.find oid with
            | none => ([Event.detachPool], vg1, Except.error RemoveErr.badState)
            | some olv =>
              let vg2 := vg1.set oid (lv_set_visible olv)
              match remove_seg_from_segs_using_this_lv vg2 oid cid with
              | none =>
                ([Event.detachPool, Event.setVisible, Event.removeSegUsing],
                 vg2, Except.error RemoveErr.removeSegFail)
              | some vg3 =>
                match move_lv_segments vg3 cid oid with
                | none =>
                  ([Event.detachPool, Event.setVisible, Event.removeSegUsing,
                    Event.moveSegments], vg3, Except.error RemoveErr.moveSegFail)
                | some vg4 =>
                  match vg4.find cid with
                  | none =>
                    ([Event.detachPool, Event.setVisible, Event.removeSegUsing,
                      Event.moveSegments], vg4, Except.error RemoveErr.badState)
                  | some clv4 =>
                    let vg5 := vg4.set cid
                      { clv4 with status := { clv4.status with cache := false } }
                    let segt : Option String :=
                      if o.errorSegtypeOk then some errorStr else none
                    let tr6 :=
                      [Event.detachPool, Event.setVisible, Event.removeSegUsing,
                       Event.moveSegments, Event.getSegtype errorStr o.errorSegtypeOk,
                       Event.addVirtualSegment segt clv4.le_count]
                    match lv_add_virtual_segment vg5 oid clv4.le_count segt with
                    | none => (tr6, vg5, Except.error RemoveErr.addVirtFail)
                    | some vg6 => (tr6, vg6, Except.ok (pid, oid))

/-- `lv_cache_remove` (cache_manip.c lines 96-219): precondition check,
policy phase, dirty-block wait, graph surgery, final commit cycle, separate
pool resume, and teardown of the vacated hidden volume.  Returns the event
trace, the final in-memory state, and `none` for the success return 1 or the
distinct failure exit taken; the outer `none` means the polling loop did not
finish within `fuel` queries. -/
def lv_cache_remove (fuel : Nat) (o : ROracle) (vg : VG) (cid : Nat) :
    Option (List Event × VG × Option RemoveErr) :=
  match vg.find cid with
  | none => some ([], vg, some RemoveErr.badState)
  | some clv =>
    if !(lv_is_cache clv) then some ([], vg, some RemoveErr.notCache)
    else
      match policyPhase o vg cid with
      | (tr1, vg1, some e) => some (tr1, vg1, some e)
      | (tr1, vg1, none) =>
        match flushLoop o fuel 0 with
        | none => none
        | some (tr2, some e) => some (tr1 ++ tr2, vg1, some e)
        | some (tr2, none) =>
          match graphSurgery o vg1 cid with
          | (tr3, vg3, Except.error e) => some (tr1 ++ tr2 ++ tr3, vg3, some e)
          | (tr3, vg3, Except.ok (pid, oid)) =>
            match commitCycle o.cycle2 cid with
            | (tr4, some ce) =>
              some (tr1 ++ tr2 ++ tr3 ++ tr4, vg3, some (RemoveErr.cycleB ce))
            | (tr4, none) =>
              if !o.resumePoolOk then
                some (tr1 ++ tr2 ++ tr3 ++ tr4 ++ [Event.resumeLV pid false],
                      vg3, some RemoveErr.resumePoolFail)
              else if !o.activateOk then
                some (tr1 ++ tr2 ++ tr3 ++ tr4 ++
                        [Event.resumeLV pid true, Event.activateLV oid false],
                      vg3, some RemoveErr.activateFail)
              else if !o.deactivateOk then
                some (tr1 ++ tr2 ++ tr3 ++ tr4 ++
                        [Event.resumeLV pid true, Event.activateLV oid true,
                         Event.deactivateLV oid false],
                      vg3, some RemoveErr.deactivateFail)
              else if !o.lvRemoveOk then
                some (tr1 ++ tr2 ++ tr3 ++ tr4 ++
                        [Event.resumeLV pid true, Event.activateLV oid true,
                         Event.deactivateLV oid true, Event.lvRemoveEv oid false],
                      vg3, some RemoveErr.lvRemoveFail)
              else
                some (tr1 ++ tr2 ++ tr3 ++ tr4 ++
                        [Event.resumeLV pid true, Event.activateLV oid true,
                         Event.deactivateLV oid true, Event.lvRemoveEv oid true],
                      lv_remove vg3 oid, none)

/-- `lv_cache_create` (cache_manip.c lines 41-83): precondition checks on
pool and origin, "cache" segment-type lookup (failing fast on a miss),
layer insertion with the `_corig` suffix, segment-type rewrite and pool
attachment.  Returns the trace, the resulting in-memory state, and the id
of the returned cache LV (`none` models the NULL return). -/
def lv_cache_create (o : COracle) (vg : VG) (poolId originId newId : Nat) :
    List Event × VG × Option Nat :=
  match vg.find poolId, vg.find originId with
  | some pool, some origin =>
    if !(lv_is_cache_pool pool) then ([], vg, none)
    else if lv_is_cache_type origin then ([], vg, none)
    else if !o.cacheSegtypeOk then ([Event.getSegtype cacheStr false], vg, none)
    else if !o.insertLayerOk then
      ([Event.getSegtype cacheStr true, Event.insertLayer false], vg, none)
    else
      match insert_layer_for_lv vg originId newId corigStr with
      | none => ([Event.getSegtype cacheStr true, Event.insertLayer false], vg, none)
      | some vg1 =>
        match vg1.find originId with
        | none => ([Event.getSegtype cacheStr true, Event.insertLayer true], vg1, none)
        | some clv =>
          match clv.segments with
          | [] => ([Event.getSegtype cacheStr true, Event.insertLayer true], vg1, none)
          | s :: rest =>
            let vg2 := vg1.set originId
              { clv with segments := { s with segtype := some cacheStr } :: rest }
            if !o.attachPoolOk then
              ([Event.getSegtype cacheStr true, Event.insertLayer true,
                Event.attachPool false], vg2, none)
            else
              match attach_pool_lv vg2 originId poolId with
              | none =>
                ([Event.getSegtype cacheStr true, Event.insertLayer true,
                  Event.attachPool false], vg2, none)
              | some vg3 =>
                ([Event.getSegtype cacheStr true, Event.insertLayer true,
                  Event.attachPool true], vg3, some originId)
  | _, _ => ([], vg, none)

/-- A commit-protocol event (metadata write, suspend, commit, resume). -/
def isProto : Event → Bool
  | Event.vgWrite _ => true
  | Event.suspendLV _ _ => true
  | Event.vgCommit _ => true
  | Event.resumeLV _ _ => true
  | _ => false

/-- Last event of a trace, or `prev` if the trace is empty. -/
def lastOf (prev : Option Event) : List Event → Option Event
  | [] => prev
  | e :: rest => lastOf (some e) rest

/-- Scan a trace checking that every pool-detach call is immediately
preceded by a dirty-block query returning 0. -/
def dzbScan (prev : Option Event) : List Event → Bool
  | [] => true
  | e :: rest =>
    (!(e == Event.detachPool) || (prev == some (Event.blockInfo (some 0)))) &&
      dzbScan (some e) rest

/-- State transition of the suspension tracker: a successful suspend of the
primary sets it, a successful resume of the primary clears it. -/
def cosStep (primary : Nat) (susp : Bool) : Event → Bool
  | Event.suspendLV l ok => ((l == primary) && ok) || susp
  | Event.resumeLV l ok => if (l == primary) && ok then false else susp
  | _ => susp

/-- Final suspension state after a trace. -/
def cosAfter (primary : Nat) (susp : Bool) : List Event → Bool
  | [] => susp
  | e :: rest => cosAfter primary (cosStep primary susp e) rest

/-- Scan a trace checking that every metadata-commit call happens while the
primary volume is suspended. -/
def cosScan (primary : Nat) (susp : Bool) : List Event → Bool
  | [] => true
  | e :: rest =>
    (match e with
     | Event.vgCommit _ => susp
     | _ => true) &&
      cosScan primary (cosStep primary susp e) rest

/-- The failure exits of the flush-and-wait phase (policy query, first
commit cycle, dirty-block query). -/
def isFlushPhaseErr : RemoveErr → Bool
  | RemoveErr.policyInfoFail => true
  | RemoveErr.blockInfoFail => true
  | RemoveErr.cycleA _ => true
  | _ => false

/-- The trace of one commit cycle that fails at the given step: the calls
made up to and including the failing one, in source order. -/
def cycleFailTrace (lvid : Nat) : CycleErr → List Event
  | CycleErr.writeFail => [Event.vgWrite false]
  | CycleErr.suspendFail => [Event.vgWrite true, Event.suspendLV lvid false]
  | CycleErr.commitFail =>
      [Event.vgWrite true, Event.suspendLV lvid true, Event.vgCommit false]
  | CycleErr.resumeFail =>
      [Event.vgWrite true, Event.suspendLV lvid true, Event.vgCommit true,
       Event.resumeLV lvid false]

/-- The event of the failing step of a commit cycle. -/
def cycleFailEvent (lvid : Nat) : CycleErr → Event
  | CycleErr.writeFail => Event.vgWrite false
  | CycleErr.suspendFail => Event.suspendLV lvid false
  | CycleErr.commitFail => Event.vgCommit false
  | CycleErr.resumeFail => Event.resumeLV lvid false

/-- Which oracle outcome produces each distinct cycle failure. -/
def cycleErrMatches (c : CycleOutcome) : CycleErr → Prop
  | CycleErr.writeFail => c.writeOk = false
  | CycleErr.suspendFail => c.writeOk = true ∧ c.suspendOk = false
  | CycleErr.commitFail => c.writeOk = true ∧ c.suspendOk = true ∧ c.commitOk = false
  | CycleErr.resumeFail =>
      c.writeOk = true ∧ c.suspendOk = true ∧ c.commitOk = true ∧ c.resumeOk = false

/-- The distinct failure exits reached during the graph surgery. -/
def isSurgeryErr : RemoveErr → Bool
  | RemoveErr.badState => true
  | RemoveErr.detachPoolFail => true
  | RemoveErr.removeSegFail => true
  | RemoveErr.moveSegFail => true
  | RemoveErr.addVirtFail => true
  | _ => false

/-- Strip the cache-policy fields of a segment, keeping the graph-structural
fields (type, length, pool reference, sub-volumes). -/
def segGraphProj (s : LVSeg) : LVSeg :=
  { s with policy_name := none, policy_argc := 0, policy_argv := [] }

/-- The graph-structural content of a volume: everything except the policy
fields of its segments. -/
def lvGraphProj (lv : LV) : LV :=
  { lv with segments := lv.segments.map segGraphProj }

/-! ### Concrete fixtures used by the witnesses -/

/-- A non-"cleaner" policy name reported by the policy query. -/
def mqStr : String := "mq"

/-- Name of the witness cache pool. -/
def poolName : String := "fastpool"

/-- Name of the witness origin volume. -/
def originName : String := "lv1"

/-- A 4-extent cache-pool volume. -/
def poolLV : LV :=
  { name := poolName, status := { cache_pool := true },
    segments := [{ segtype := some stripedStr, len := 4 }], le_count := 4 }

/-- The origin volume of the witness scenarios. -/
def originLV : LV :=
  { name := originName,
    segments := [{ segtype := some stripedStr, len := 10 }], le_count := 10 }

/-- Initial volume group: pool at id 0, origin at id 1. -/
def vg0 : VG := ⟨[(0, poolLV), (1, originLV)]⟩

/-- All-success attach oracle. -/
def okC : COracle := ⟨true, true, true⟩

/-- All-success commit-cycle outcome. -/
def okCycle : CycleOutcome := ⟨true, true, true, true⟩

/-- All-success detach oracle: policy "mq" (not "cleaner"), first dirty query
returns 0. -/
def okR : ROracle :=
  { policyName := some mqStr, dirty := fun _ => some 0, cycle1 := okCycle,
    cycle2 := okCycle, errorSegtypeOk := true, resumePoolOk := true,
    activateOk := true, deactivateOk := true, lvRemoveOk := true }

/-- Detach oracle whose dirty query reports 7 blocks twice before 0. -/
def dirtyR : ROracle :=
  { okR with dirty := fun k => if k < 2 then some 7 else some 0 }

/-- Detach oracle whose second commit cycle fails at the commit step. -/
def commitFailR : ROracle :=
  { okR with cycle2 := ⟨true, true, false, true⟩ }

/-- Detach oracle whose first commit cycle fails at the write step. -/
def writeFailR : ROracle :=
  { okR with cycle1 := ⟨false, true, true, true⟩ }

/-- Detach oracle for which the "error" segment-type lookup fails. -/
def noErrSegR : ROracle :=
  { okR with errorSegtypeOk := false }

/-- Attach oracle for which the "cache" segment-type lookup fails. -/
def noCacheSegC : COracle := ⟨false, true, true⟩

/-- The volume group after the witness attach: cached volume at id 1,
hidden origin at id 2. -/
def vgAtt : VG := (lv_cache_create okC vg0 0 1 2).2.1

/-! ### Association-list lemmas -/

theorem find?_filter_key (l : List (Nat × LV)) (i j : Nat) (h : ¬ j = i) :
    (l.filter (fun p => p.1 != i)).find? (fun p => p.1 == j) =
      l.find? (fun p => p.1 == j) := by
  induction l with
  | nil => rfl
  | cons a t ih =>
    by_cases hai : a.1 = i
    · have h2 : (i == j) = false := beq_eq_false_iff_ne.mpr (fun hh => h hh.symm)
      simp [List.filter_cons, List.find?_cons, hai, h2, ih]
    · by_cases haj : a.1 = j
      · simp [List.filter_cons, List.find?_cons, hai, haj, h, ih]
      · simp [List.filter_cons, List.find?_cons, hai, haj, h, ih]

theorem VG.find_set (vg : VG) (i j : Nat) (lv : LV) :
    (vg.set i lv).find j = if j = i then some lv else vg.find j := by
  by_cases h : j = i
  · subst h; simp [VG.set, VG.find, List.find?_cons]
  · have hij : (i == j) = false := by
      simp only [beq_eq_false_iff_ne, ne_eq]
      exact fun hh => h hh.symm
    simp [VG.set, VG.find, List.find?_cons, hij, h, find?_filter_key vg.lvs i j h]

theorem VG.find_removeLV (vg : VG) (i j : Nat) :
    (vg.removeLV i).find j = if j = i then none else vg.find j := by
  by_cases h : j = i
  · subst h
    simp only [VG.removeLV, VG.find, if_pos rfl]
    rw [List.find?_eq_none.mpr]
    · rfl
    · intro p hp
      have := (List.mem_filter.mp hp).2
      simp only [bne_iff_ne, ne_eq] at this
      simp [this]
  · simp [VG.removeLV, VG.find, h, find?_filter_key vg.lvs i j h]

theorem VG.mem_set (vg : VG) (i : Nat) (lv : LV) (p : Nat × LV) :
    p ∈ (vg.set i lv).lvs ↔ p = (i, lv) ∨ (p ∈ vg.lvs ∧ ¬ p.1 = i) := by
  simp [VG.set, List.mem_filter, bne_iff_ne, and_comm]

theorem VG.mem_removeLV (vg : VG) (i : Nat) (p : Nat × LV) :
    p ∈ (vg.removeLV i).lvs ↔ p ∈ vg.lvs ∧ ¬ p.1 = i := by
  simp [VG.removeLV, List.mem_filter, bne_iff_ne]

/-! ### Trace scanners -/

theorem lastOf_append (p : Option Event) (l1 l2 : List Event) :
    lastOf p (l1 ++ l2) = lastOf (lastOf p l1) l2 := by
  induction l1 generalizing p with
  | nil => rfl
  | cons e t ih => simp [lastOf, ih]

theorem dzbScan_append (p : Option Event) (l1 l2 : List Event) :
    dzbScan p (l1 ++ l2) = (dzbScan p l1 && dzbScan (lastOf p l1) l2) := by
  induction l1 generalizing p with
  | nil => rfl
  | cons e t ih => simp [dzbScan, lastOf, ih, Bool.and_assoc]

theorem dzbScan_of_not_mem (p : Option Event) (l : List Event)
    (h : Event.detachPool ∉ l) : dzbScan p l = true := by
  induction l generalizing p with
  | nil => rfl
  | cons e t ih =>
    simp only [List.mem_cons, not_or] at h
    have he : (e == Event.detachPool) = false := by
      simp only [beq_eq_false_iff_ne, ne_eq]
      exact fun hh => h.1 hh.symm
    simp [dzbScan, he, ih _ h.2]

theorem cosAfter_append (primary : Nat) (s : Bool) (l1 l2 : List Event) :
    cosAfter primary s (l1 ++ l2) = cosAfter primary (cosAfter primary s l1) l2 := by
  induction l1 generalizing s with
  | nil => rfl
  | cons e t ih => simp [cosAfter, ih]

theorem cosScan_append (primary : Nat) (s : Bool) (l1 l2 : List Event) :
    cosScan primary s (l1 ++ l2) =
      (cosScan primary s l1 && cosScan primary (cosAfter primary s l1) l2) := by
  induction l1 generalizing s with
  | nil => rfl
  | cons e t ih => simp [cosScan, cosAfter, ih, Bool.and_assoc]

theorem cosScan_of_nonproto (primary : Nat) (s : Bool) (l : List Event)
    (h : ∀ e ∈ l, isProto e = false) : cosScan primary s l = true := by
  induction l generalizing s with
  | nil => rfl
  | cons e t ih =>
    have he := h e (List.mem_cons_self e t)
    have ht : ∀ x ∈ t, isProto x = false := fun x hx => h x (List.mem_cons_of_mem e hx)
    cases e <;> simp [isProto] at he ⊢ <;> simp [cosScan, cosStep, ih _ ht]

theorem cosAfter_of_nonproto (primary : Nat) (s : Bool) (l : List Event)
    (h : ∀ e ∈ l, isProto e = false) : cosAfter primary s l = s := by
  induction l generalizing s with
  | nil => rfl
  | cons e t ih =>
    have he := h e (List.mem_cons_self e t)
    have ht : ∀ x ∈ t, isProto x = false := fun x hx => h x (List.mem_cons_of_mem e hx)
    cases e <;> simp [isProto] at he ⊢ <;> simp [cosAfter, cosStep, ih _ ht]

/-! ### Flush-loop and commit-cycle characterizations -/

theorem flushLoop_spec (o : ROracle) :
    ∀ fuel k tr r, flushLoop o fuel k = some (tr, r) →
      (∀ e ∈ tr, (∃ d, e = Event.blockInfo d) ∨ e = Event.sleepEv) ∧
      (r = none → ∀ p, lastOf p tr = some (Event.blockInfo (some 0))) ∧
      (∀ e, r = some e → e = RemoveErr.blockInfoFail) := by
  intro fuel
  induction fuel with
  | zero => intro k tr r h; simp [flushLoop] at h
  | succ n ih =>
    intro k tr r h
    simp only [flushLoop] at h
    split at h
    · simp only [Option.some.injEq, Prod.mk.injEq] at h
      obtain ⟨htr, hr⟩ := h
      subst htr; subst hr
      refine ⟨?_, ?_, ?_⟩
      · intro e he; simp only [List.mem_singleton] at he; subst he; exact Or.inl ⟨none, rfl⟩
      · intro hco; cases hco
      · intro e he; injection he with he2; exact he2.symm
    · rename_i d _
      split at h
      · rename_i hz
        simp only [Option.some.injEq, Prod.mk.injEq] at h
        obtain ⟨htr, hr⟩ := h
        subst htr; subst hr
        refine ⟨?_, ?_, ?_⟩
        · intro e he; simp only [List.mem_singleton] at he; subst he
          exact Or.inl ⟨some d, rfl⟩
        · intro _ p; simp [lastOf, hz]
        · intro e he; cases he
      · split at h
        · exact Option.noConfusion h
        · rename_i tr2 r2 hrec
          simp only [Option.some.injEq, Prod.mk.injEq] at h
          obtain ⟨htr, hr⟩ := h
          subst htr; subst hr
          obtain ⟨ih1, ih2, ih3⟩ := ih (k + 1) tr2 r2 hrec
          refine ⟨?_, ?_, ih3⟩
          · intro e he
            simp only [List.mem_cons] at he
            rcases he with he | he | he
            · subst he; exact Or.inl ⟨some d, rfl⟩
            · subst he; exact Or.inr rfl
            · exact ih1 e he
          · intro hr2 p
            simp only [lastOf]
            exact ih2 hr2 _

theorem commitCycle_cases (c : CycleOutcome) (lvid : Nat) :
    (c.writeOk = false ∧
      commitCycle c lvid = ([Event.vgWrite false], some CycleErr.writeFail)) ∨
    (c.writeOk = true ∧ c.suspendOk = false ∧
      commitCycle c lvid =
        ([Event.vgWrite true, Event.suspendLV lvid false], some CycleErr.suspendFail)) ∨
    (c.writeOk = true ∧ c.suspendOk = true ∧ c.commitOk = false ∧
      commitCycle c lvid =
        ([Event.vgWrite true, Event.suspendLV lvid true, Event.vgCommit false],
         some CycleErr.commitFail)) ∨
    (c.writeOk = true ∧ c.suspendOk = true ∧ c.commitOk = true ∧ c.resumeOk = false ∧
      commitCycle c lvid =
        ([Event.vgWrite true, Event.suspendLV lvid true, Event.vgCommit true,
          Event.resumeLV lvid false], some CycleErr.resumeFail)) ∨
    (c.writeOk = true ∧ c.suspendOk = true ∧ c.commitOk = true ∧ c.resumeOk = true ∧
      commitCycle c lvid = (cycleEvents lvid, none)) := by
  obtain ⟨w, s, cm, r⟩ := c
  cases w <;> cases s <;> cases cm <;> cases r <;> simp [commitCycle, cycleEvents]

theorem commitCycle_none (c : CycleOutcome) (lvid : Nat) (tr : List Event)
    (h : commitCycle c lvid = (tr, none)) :
    tr = cycleEvents lvid ∧ c = ⟨true, true, true, true⟩ := by
  rcases commitCycle_cases c lvid with ⟨_, hc⟩ | ⟨_, _, hc⟩ | ⟨_, _, _, hc⟩ |
    ⟨_, _, _, _, hc⟩ | ⟨h1, h2, h3, h4, hc⟩ <;> rw [hc] at h <;>
    simp only [Prod.mk.injEq] at h
  · exact absurd h.2 (by simp)
  · exact absurd h.2 (by simp)
  · exact absurd h.2 (by simp)
  · exact absurd h.2 (by simp)
  · obtain ⟨w, s, cm, r⟩ := c
    exact ⟨h.1.symm, by simp_all⟩

theorem commitCycle_proto (c : CycleOutcome) (lvid : Nat) :
    ∀ e ∈ (commitCycle c lvid).1, isProto e = true := by
  obtain ⟨w, s, cm, r⟩ := c
  cases w <;> cases s <;> cases cm <;> cases r <;>
    simp [commitCycle, cycleEvents, isProto]

theorem commitCycle_no_detach (c : CycleOutcome) (lvid : Nat) :
    Event.detachPool ∉ (commitCycle c lvid).1 := by
  obtain ⟨w, s, cm, r⟩ := c
  cases w <;> cases s <;> cases cm <;> cases r <;> simp [commitCycle, cycleEvents]

theorem commitCycle_cosScan (c : CycleOutcome) (lvid : Nat) (s0 : Bool) :
    cosScan lvid s0 (commitCycle c lvid).1 = true := by
  obtain ⟨w, s, cm, r⟩ := c
  cases w <;> cases s <;> cases cm <;> cases r <;>
    simp [commitCycle, cycleEvents, cosScan, cosStep]

/-! ### Policy-phase characterization -/

theorem policyPhase_cases (o : ROracle) (vg : VG) (cid : Nat) (tr : List Event)
    (vg1 : VG) (r : Option RemoveErr) (h : policyPhase o vg cid = (tr, vg1, r)) :
    (o.policyName = none ∧ tr = [Event.policyInfo none] ∧ vg1 = vg ∧
       r = some RemoveErr.policyInfoFail) ∨
    (∃ pn, o.policyName = some pn ∧ pn = cleanerStr ∧
       tr = [Event.policyInfo (some pn)] ∧ vg1 = vg ∧ r = none) ∨
    (∃ pn, o.policyName = some pn ∧ ¬ pn = cleanerStr ∧
       tr = [Event.policyInfo (some pn)] ∧ vg1 = vg ∧ r = some RemoveErr.badState) ∨
    (∃ pn clv s rest, o.policyName = some pn ∧ ¬ pn = cleanerStr ∧
       vg.find cid = some clv ∧ clv.segments = s :: rest ∧
       tr = Event.policyInfo (some pn) :: (commitCycle o.cycle1 cid).1 ∧
       vg1 = vg.set cid { clv with segments :=
         { s with policy_name := some cleanerStr, policy_argc := 0,
                  policy_argv := [] } :: rest } ∧
       r = (commitCycle o.cycle1 cid).2.map RemoveErr.cycleA) := by
  unfold policyPhase at h
  split at h
  · simp only [Prod.mk.injEq] at h
    exact Or.inl ⟨by assumption, h.1.symm, h.2.1.symm, h.2.2.symm⟩
  · rename_i pn hpn
    split at h
    · rename_i hcl
      simp only [Prod.mk.injEq] at h
      exact Or.inr (Or.inl ⟨pn, hpn, hcl, h.1.symm, h.2.1.symm, h.2.2.symm⟩)
    · rename_i hcl
      split at h
      · rename_i hfd
        simp only [Prod.mk.injEq] at h
        exact Or.inr (Or.inr (Or.inl ⟨pn, hpn, hcl, h.1.symm, h.2.1.symm, h.2.2.symm⟩))
      · rename_i clv hfd
        split at h
        · rename_i hsg
          simp only [Prod.mk.injEq] at h
          exact Or.inr (Or.inr (Or.inl ⟨pn, hpn, hcl, h.1.symm, h.2.1.symm, h.2.2.symm⟩))
        · rename_i s rest hsg
          dsimp only at h
          simp only [Prod.mk.injEq] at h
          exact Or.inr (Or.inr (Or.inr
            ⟨pn, clv, s, rest, hpn, hcl, hfd, hsg, h.1.symm, h.2.1.symm, h.2.2.symm⟩))

/-! ### Graph-primitive characterizations -/

theorem detach_pool_lv_spec (vg : VG) (cid : Nat) (vg1 : VG)
    (h : detach_pool_lv vg cid = some vg1) :
    ∃ clv s rest pid pool, vg.find cid = some clv ∧ clv.segments = s :: rest ∧
      s.pool_lv = some pid ∧
      (vg.set cid { clv with segments := { s with pool_lv := none } :: rest }).find pid
        = some pool ∧
      cid ∈ pool.segs_using ∧
      vg1 = (vg.set cid { clv with segments :=
               { s with pool_lv := none } :: rest }).set pid
              { pool with segs_using := pool.segs_using.erase cid } := by
  unfold detach_pool_lv at h
  split at h
  · exact Option.noConfusion h
  · rename_i clv hfd
    split at h
    · exact Option.noConfusion h
    · rename_i s rest hsg
      split at h
      · exact Option.noConfusion h
      · rename_i pid hpl
        dsimp only at h
        split at h
        · exact Option.noConfusion h
        · rename_i pool hpool
          split at h
          · rename_i hmem
            exact ⟨clv, s, rest, pid, pool, hfd, hsg, hpl, hpool, hmem,
              (Option.some.inj h).symm⟩
          · exact Option.noConfusion h

theorem remove_seg_spec (vg : VG) (lvid ownerId : Nat) (vg1 : VG)
    (h : remove_seg_from_segs_using_this_lv vg lvid ownerId = some vg1) :
    ∃ lv, vg.find lvid = some lv ∧ ownerId ∈ lv.segs_using ∧
      vg1 = vg.set lvid { lv with segs_using := lv.segs_using.erase ownerId } := by
  unfold remove_seg_from_segs_using_this_lv at h
  split at h
  · exact Option.noConfusion h
  · rename_i lv hfd
    split at h
    · rename_i hmem
      exact ⟨lv, hfd, hmem, (Option.some.inj h).symm⟩
    · exact Option.noConfusion h

theorem move_lv_segments_spec (vg : VG) (toId fromId : Nat) (vg1 : VG)
    (h : move_lv_segments vg toId fromId = some vg1) :
    ∃ lvTo lvFrom lvFrom1,
      vg.find toId = some lvTo ∧ vg.find fromId = some lvFrom ∧
      (vg.set toId { lvTo with segments := lvFrom.segments,
                               le_count := lvFrom.le_count }).find fromId = some lvFrom1 ∧
      vg1 = ((vg.set toId { lvTo with segments := lvFrom.segments,
                                      le_count := lvFrom.le_count }).set fromId
              { lvFrom1 with segments := [], le_count := 0 }) := by
  unfold move_lv_segments at h
  split at h
  · rename_i lvTo lvFrom hto hfrom
    dsimp only at h
    split at h
    · exact Option.noConfusion h
    · rename_i lvFrom1 hfd
      exact ⟨lvTo, lvFrom, lvFrom1, hto, hfrom, hfd, (Option.some.inj h).symm⟩
  · exact Option.noConfusion h

theorem lv_add_virtual_segment_spec (vg : VG) (lvid len : Nat)
    (segt : Option String) (vg1 : VG)
    (h : lv_add_virtual_segment vg lvid len segt = some vg1) :
    ∃ t lv, segt = some t ∧ vg.find lvid = some lv ∧
      vg1 = vg.set lvid
        { lv with segments := lv.segments ++ [{ segtype := some t, len := len }]
                  le_count := lv.le_count + len } := by
  unfold lv_add_virtual_segment at h
  split at h
  · exact Option.noConfusion h
  · rename_i t
    split at h
    · exact Option.noConfusion h
    · rename_i lv hfd
      exact ⟨t, lv, rfl, hfd, (Option.some.inj h).symm⟩

theorem insert_layer_for_lv_spec (vg : VG) (lvid newId : Nat) (suffix : String)
    (vg1 : VG) (h : insert_layer_for_lv vg lvid newId suffix = some vg1) :
    ∃ lvw, vg.find lvid = some lvw ∧ vg.find newId = none ∧
      vg1 = (vg.set newId
              { name := lvw.name ++ suffix
                status := { visible := false }
                segments := lvw.segments
                le_count := lvw.le_count
                segs_using := [lvid] }).set lvid
              { lvw with status := { lvw.status with cache := true }
                         segments := [{ segtype := some stripedStr,
                                        len := lvw.le_count, areas := [newId] }] } := by
  unfold insert_layer_for_lv at h
  split at h
  · rename_i lvw hfd hnew
    exact ⟨lvw, hfd, hnew, (Option.some.inj h).symm⟩
  · exact Option.noConfusion h

theorem attach_pool_lv_spec (vg : VG) (lvid pid : Nat) (vg1 : VG)
    (h : attach_pool_lv vg lvid pid = some vg1) :
    ∃ lv s rest pool, vg.find lvid = some lv ∧ lv.segments = s :: rest ∧
      (vg.set lvid { lv with segments := { s with pool_lv := some pid } :: rest }).find pid
        = some pool ∧
      vg1 = (vg.set lvid { lv with segments :=
               { s with pool_lv := some pid } :: rest }).set pid
              { pool with segs_using := pool.segs_using ++ [lvid] } := by
  unfold attach_pool_lv at h
  split at h
  · exact Option.noConfusion h
  · rename_i lv hfd
    split at h
    · exact Option.noConfusion h
    · rename_i s rest hsg
      dsimp only at h
      split at h
      · exact Option.noConfusion h
      · rename_i pool hpool
        exact ⟨lv, s, rest, pool, hfd, hsg, hpool, (Option.some.inj h).symm⟩

/-! ### Graph-surgery characterizations -/

theorem graphSurgery_err_classify (o : ROracle) (vg : VG) (cid : Nat)
    (tr : List Event) (vg1 : VG) (e : RemoveErr)
    (h : graphSurgery o vg cid = (tr, vg1, Except.error e)) :
    isFlushPhaseErr e = false := by
  unfold graphSurgery at h
  repeat' (first | split at h | dsimp only at h)
  all_goals simp only [Prod.mk.injEq] at h
  all_goals first
    | exact absurd h.2.2 (fun hh => Except.noConfusion hh)
    | (rw [← Except.error.inj h.2.2]; rfl)

theorem graphSurgery_trace (o : ROracle) (vg : VG) (cid : Nat) :
    ((graphSurgery o vg cid).1 = [] ∨
      ∃ rest, (graphSurgery o vg cid).1 = Event.detachPool :: rest ∧
        Event.detachPool ∉ rest) ∧
    (∀ e ∈ (graphSurgery o vg cid).1, isProto e = false) := by
  unfold graphSurgery
  repeat' (first | split | dsimp only)
  all_goals refine ⟨?_, ?_⟩
  all_goals
    first
    | exact Or.inl rfl
    | (refine Or.inr ⟨_, rfl, ?_⟩; simp)
    | simp [isProto]

theorem graphSurgery_ok_finds (o : ROracle) (vg : VG) (cid : Nat)
    (clv : LV) (cseg : LVSeg) (rest : List LVSeg) (pid oid : Nat) (olv pool : LV)
    (hc : vg.find cid = some clv) (hs : clv.segments = cseg :: rest)
    (hpl : cseg.pool_lv = some pid) (hhd : cseg.areas.head? = some oid)
    (ho : vg.find oid = some olv) (hp : vg.find pid = some pool)
    (hmp : cid ∈ pool.segs_using) (hmo : cid ∈ olv.segs_using)
    (het : o.errorSegtypeOk = true)
    (hco : ¬ cid = oid) (hcp : ¬ cid = pid) (hop : ¬ oid = pid) :
    (graphSurgery o vg cid).1 =
      [Event.detachPool, Event.setVisible, Event.removeSegUsing, Event.moveSegments,
       Event.getSegtype errorStr true,
       Event.addVirtualSegment (some errorStr) olv.le_count] ∧
    (graphSurgery o vg cid).2.2 = Except.ok (pid, oid) ∧
    ((graphSurgery o vg cid).2.1).find cid =
      some { clv with status := { clv.status with cache := false },
                      segments := olv.segments, le_count := olv.le_count } ∧
    ((graphSurgery o vg cid).2.1).find oid =
      some { olv with status := { olv.status with visible := true },
                      segs_using := olv.segs_using.erase cid,
                      segments := [{ segtype := some errorStr, len := olv.le_count }],
                      le_count := olv.le_count } ∧
    ((graphSurgery o vg cid).2.1).find pid =
      some { pool with segs_using := pool.segs_using.erase cid } ∧
    (∀ j, ¬ j = cid → ¬ j = oid → ¬ j = pid →
      ((graphSurgery o vg cid).2.1).find j = vg.find j) := by
  have hoc : ¬ oid = cid := fun hh => hco hh.symm
  have hpc : ¬ pid = cid := fun hh => hcp hh.symm
  have hpo : ¬ pid = oid := fun hh => hop hh.symm
  refine ⟨?_, ?_, ?_, ?_, ?_, ?_⟩
  · simp [graphSurgery, detach_pool_lv, remove_seg_from_segs_using_this_lv,
      move_lv_segments, lv_add_virtual_segment, lv_set_visible,
      hc, hs, hpl, hhd, ho, hp, hmp, hmo, het,
      VG.find_set, hco, hcp, hop, hoc, hpc, hpo]
  · simp [graphSurgery, detach_pool_lv, remove_seg_from_segs_using_this_lv,
      move_lv_segments, lv_add_virtual_segment, lv_set_visible,
      hc, hs, hpl, hhd, ho, hp, hmp, hmo, het,
      VG.find_set, hco, hcp, hop, hoc, hpc, hpo]
  · simp [graphSurgery, detach_pool_lv, remove_seg_from_segs_using_this_lv,
      move_lv_segments, lv_add_virtual_segment, lv_set_visible,
      hc, hs, hpl, hhd, ho, hp, hmp, hmo, het,
      VG.find_set, hco, hcp, hop, hoc, hpc, hpo]
  · simp [graphSurgery, detach_pool_lv, remove_seg_from_segs_using_this_lv,
      move_lv_segments, lv_add_virtual_segment, lv_set_visible,
      hc, hs, hpl, hhd, ho, hp, hmp, hmo, het,
      VG.find_set, hco, hcp, hop, hoc, hpc, hpo]
  · simp [graphSurgery, detach_pool_lv, remove_seg_from_segs_using_this_lv,
      move_lv_segments, lv_add_virtual_segment, lv_set_visible,
      hc, hs, hpl, hhd, ho, hp, hmp, hmo, het,
      VG.find_set, hco, hcp, hop, hoc, hpc, hpo]
  · intro j hjc hjo hjp
    simp [graphSurgery, detach_pool_lv, remove_seg_from_segs_using_this_lv,
      move_lv_segments, lv_add_virtual_segment, lv_set_visible,
      hc, hs, hpl, hhd, ho, hp, hmp, hmo, het,
      VG.find_set, hco, hcp, hop, hoc, hpc, hpo, hjc, hjo, hjp]

/-- Exhaustive decomposition of the outcomes of `lv_cache_remove` into the
phase results that produced them. -/
theorem remove_cases (fuel : Nat) (o : ROracle) (vg : VG) (cid : Nat)
    (tr : List Event) (vg2 : VG) (res : Option RemoveErr)
    (h : lv_cache_remove fuel o vg cid = some (tr, vg2, res)) :
    (vg.find cid = none ∧ tr = [] ∧ vg2 = vg ∧ res = some RemoveErr.badState) ∨
    (∃ clv, vg.find cid = some clv ∧ lv_is_cache clv = false ∧ tr = [] ∧ vg2 = vg ∧
      res = some RemoveErr.notCache) ∨
    (∃ e1, policyPhase o vg cid = (tr, vg2, some e1) ∧ res = some e1) ∨
    (∃ tr1 vg1 tr2 e2, policyPhase o vg cid = (tr1, vg1, none) ∧
      flushLoop o fuel 0 = some (tr2, some e2) ∧ tr = tr1 ++ tr2 ∧ vg2 = vg1 ∧
      res = some e2) ∨
    (∃ tr1 vg1 tr2 tr3 e3, policyPhase o vg cid = (tr1, vg1, none) ∧
      flushLoop o fuel 0 = some (tr2, none) ∧
      graphSurgery o vg1 cid = (tr3, vg2, Except.error e3) ∧
      tr = tr1 ++ tr2 ++ tr3 ∧ res = some e3) ∨
    (∃ tr1 vg1 tr2 tr3 pid oid tr4 ce, policyPhase o vg cid = (tr1, vg1, none) ∧
      flushLoop o fuel 0 = some (tr2, none) ∧
      graphSurgery o vg1 cid = (tr3, vg2, Except.ok (pid, oid)) ∧
      commitCycle o.cycle2 cid = (tr4, some ce) ∧
      tr = tr1 ++ tr2 ++ tr3 ++ tr4 ∧ res = some (RemoveErr.cycleB ce)) ∨
    (∃ tr1 vg1 tr2 tr3 pid oid, policyPhase o vg cid = (tr1, vg1, none) ∧
      flushLoop o fuel 0 = some (tr2, none) ∧
      graphSurgery o vg1 cid = (tr3, vg2, Except.ok (pid, oid)) ∧
      commitCycle o.cycle2 cid = (cycleEvents cid, none) ∧
      ((o.resumePoolOk = false ∧
         tr = tr1 ++ tr2 ++ tr3 ++ cycleEvents cid ++ [Event.resumeLV pid false] ∧
         res = some RemoveErr.resumePoolFail) ∨
       (o.resumePoolOk = true ∧ o.activateOk = false ∧
         tr = tr1 ++ tr2 ++ tr3 ++ cycleEvents cid ++
           [Event.resumeLV pid true, Event.activateLV oid false] ∧
         res = some RemoveErr.activateFail) ∨
       (o.resumePoolOk = true ∧ o.activateOk = true ∧ o.deactivateOk = false ∧
         tr = tr1 ++ tr2 ++ tr3 ++ cycleEvents cid ++
           [Event.resumeLV pid true, Event.activateLV oid true,
            Event.deactivateLV oid false] ∧
         res = some RemoveErr.deactivateFail) ∨
       (o.resumePoolOk = true ∧ o.activateOk = true ∧ o.deactivateOk = true ∧
         o.lvRemoveOk = false ∧
         tr = tr1 ++ tr2 ++ tr3 ++ cycleEvents cid ++
           [Event.resumeLV pid true, Event.activateLV oid true,
            Event.deactivateLV oid true, Event.lvRemoveEv oid false] ∧
         res = some RemoveErr.lvRemoveFail))) ∨
    (∃ tr1 vg1 tr2 tr3 vg3 pid oid, policyPhase o vg cid = (tr1, vg1, none) ∧
      flushLoop o fuel 0 = some (tr2, none) ∧
      graphSurgery o vg1 cid = (tr3, vg3, Except.ok (pid, oid)) ∧
      commitCycle o.cycle2 cid = (cycleEvents cid, none) ∧
      o.resumePoolOk = true ∧ o.activateOk = true ∧ o.deactivateOk = true ∧
      o.lvRemoveOk = true ∧
      tr = tr1 ++ tr2 ++ tr3 ++ cycleEvents cid ++
        [Event.resumeLV pid true, Event.activateLV oid true,
         Event.deactivateLV oid true, Event.lvRemoveEv oid true] ∧
      vg2 = lv_remove vg3 oid ∧ res = none) := by
  unfold lv_cache_remove at h
  split at h
  · rename_i hfd
    simp only [Option.some.injEq, Prod.mk.injEq] at h
    exact Or.inl ⟨hfd, h.1.symm, h.2.1.symm, h.2.2.symm⟩
  · rename_i clv hfd
    split at h
    · rename_i hic
      simp only [Option.some.injEq, Prod.mk.injEq] at h
      refine Or.inr (Or.inl ⟨clv, hfd, ?_, h.1.symm, h.2.1.symm, h.2.2.symm⟩)
      simpa using hic
    · rename_i hic
      split at h
      · rename_i tr1 vg1 e1 hpp
        simp only [Option.some.injEq, Prod.mk.injEq] at h
        refine Or.inr (Or.inr (Or.inl ⟨e1, ?_, h.2.2.symm⟩))
        rw [hpp, h.1, h.2.1]
      · rename_i tr1 vg1 hpp
        split at h
        · exact Option.noConfusion h
        · rename_i tr2 e2 hfl
          simp only [Option.some.injEq, Prod.mk.injEq] at h
          exact Or.inr (Or.inr (Or.inr (Or.inl
            ⟨tr1, vg1, tr2, e2, hpp, hfl, h.1.symm, h.2.1.symm, h.2.2.symm⟩)))
        · rename_i tr2 hfl
          split at h
          · rename_i tr3 vg3 e3 hgs
            simp only [Option.some.injEq, Prod.mk.injEq] at h
            refine Or.inr (Or.inr (Or.inr (Or.inr (Or.inl
              ⟨tr1, vg1, tr2, tr3, e3, hpp, hfl, ?_, h.1.symm, h.2.2.symm⟩))))
            rw [hgs, h.2.1]
          · rename_i tr3 vg3 pid oid hgs
            split at h
            · rename_i tr4 ce hcc
              simp only [Option.some.injEq, Prod.mk.injEq] at h
              refine Or.inr (Or.inr (Or.inr (Or.inr (Or.inr (Or.inl
                ⟨tr1, vg1, tr2, tr3, pid, oid, tr4, ce, hpp, hfl, ?_, hcc,
                 h.1.symm, h.2.2.symm⟩)))))
              rw [hgs, h.2.1]
            · rename_i tr4 hcc
              obtain ⟨htr4, -⟩ := commitCycle_none o.cycle2 cid tr4 hcc
              subst htr4
              split at h
              · rename_i hrp
                simp only [Bool.not_eq_eq_eq_not, Bool.not_true] at hrp
                simp only [Option.some.injEq, Prod.mk.injEq] at h
                refine Or.inr (Or.inr (Or.inr (Or.inr (Or.inr (Or.inr (Or.inl
                  ⟨tr1, vg1, tr2, tr3, pid, oid, hpp, hfl, ?_, hcc,
                   Or.inl ⟨by simpa using hrp, h.1.symm, h.2.2.symm⟩⟩))))))
                rw [hgs, h.2.1]
              · rename_i hrp
                simp only [Bool.not_eq_eq_eq_not, Bool.not_true] at hrp
                split at h
                · rename_i hac
                  simp only [Bool.not_eq_eq_eq_not, Bool.not_true] at hac
                  simp only [Option.some.injEq, Prod.mk.injEq] at h
                  refine Or.inr (Or.inr (Or.inr (Or.inr (Or.inr (Or.inr (Or.inl
                    ⟨tr1, vg1, tr2, tr3, pid, oid, hpp, hfl, ?_, hcc,
                     Or.inr (Or.inl ⟨by simpa using hrp, by simpa using hac,
                       h.1.symm, h.2.2.symm⟩)⟩))))))
                  rw [hgs, h.2.1]
                · rename_i hac
                  simp only [Bool.not_eq_eq_eq_not, Bool.not_true] at hac
                  split at h
                  · rename_i hda
                    simp only [Bool.not_eq_eq_eq_not, Bool.not_true] at hda
                    simp only [Option.some.injEq, Prod.mk.injEq] at h
                    refine Or.inr (Or.inr (Or.inr (Or.inr (Or.inr (Or.inr (Or.inl
                      ⟨tr1, vg1, tr2, tr3, pid, oid, hpp, hfl, ?_, hcc,
                       Or.inr (Or.inr (Or.inl ⟨by simpa using hrp,
                         by simpa using hac, by simpa using hda,
                         h.1.symm, h.2.2.symm⟩))⟩))))))
                    rw [hgs, h.2.1]
                  · rename_i hda
                    simp only [Bool.not_eq_eq_eq_not, Bool.not_true] at hda
                    split at h
                    · rename_i hlr
                      simp only [Bool.not_eq_eq_eq_not, Bool.not_true] at hlr
                      simp only [Option.some.injEq, Prod.mk.injEq] at h
                      refine Or.inr (Or.inr (Or.inr (Or.inr (Or.inr (Or.inr (Or.inl
                        ⟨tr1, vg1, tr2, tr3, pid, oid, hpp, hfl, ?_, hcc,
                         Or.inr (Or.inr (Or.inr ⟨by simpa using hrp,
                           by simpa using hac, by simpa using hda,
                           by simpa using hlr, h.1.symm, h.2.2.symm⟩))⟩))))))
                      rw [hgs, h.2.1]
                    · rename_i hlr
                      simp only [Bool.not_eq_eq_eq_not, Bool.not_true] at hlr
                      simp only [Option.some.injEq, Prod.mk.injEq] at h
                      exact Or.inr (Or.inr (Or.inr (Or.inr (Or.inr (Or.inr (Or.inr
                        ⟨tr1, vg1, tr2, tr3, vg3, pid, oid, hpp, hfl, hgs, hcc,
                         by simpa using hrp, by simpa using hac,
                         by simpa using hda, by simpa using hlr,
                         h.1.symm, h.2.1.symm, h.2.2.symm⟩))))))

/-! ### Derived phase facts -/

theorem commitCycle_some (c : CycleOutcome) (lvid : Nat) (tr : List Event)
    (ce : CycleErr) (h : commitCycle c lvid = (tr, some ce)) :
    tr = cycleFailTrace lvid ce ∧ cycleErrMatches c ce := by
  rcases commitCycle_cases c lvid with ⟨hw, hc⟩ | ⟨hw, hs, hc⟩ | ⟨hw, hs, hcm, hc⟩ |
    ⟨hw, hs, hcm, hr, hc⟩ | ⟨hw, hs, hcm, hr, hc⟩ <;> rw [hc] at h <;>
    simp only [Prod.mk.injEq, Option.some.injEq] at h
  · obtain ⟨htr, hce⟩ := h; subst hce; exact ⟨htr.symm, hw⟩
  · obtain ⟨htr, hce⟩ := h; subst hce; exact ⟨htr.symm, hw, hs⟩
  · obtain ⟨htr, hce⟩ := h; subst hce; exact ⟨htr.symm, hw, hs, hcm⟩
  · obtain ⟨htr, hce⟩ := h; subst hce; exact ⟨htr.symm, hw, hs, hcm, hr⟩
  · exact absurd h.2 (by simp)

theorem lastOf_cycleFailTrace (lvid : Nat) (ce : CycleErr) (p : Option Event) :
    lastOf p (cycleFailTrace lvid ce) = some (cycleFailEvent lvid ce) := by
  cases ce <;> rfl

theorem cycleEvents_no_detach (lvid : Nat) :
    Event.detachPool ∉ cycleEvents lvid := by
  simp [cycleEvents]

theorem cycleEvents_filter (lvid : Nat) :
    (cycleEvents lvid).filter isProto = cycleEvents lvid := by
  rfl

theorem policyPhase_no_detach (o : ROracle) (vg : VG) (cid : Nat)
    (tr : List Event) (vg1 : VG) (r : Option RemoveErr)
    (h : policyPhase o vg cid = (tr, vg1, r)) : Event.detachPool ∉ tr := by
  rcases policyPhase_cases o vg cid tr vg1 r h with
    ⟨-, htr, -, -⟩ | ⟨pn, -, -, htr, -, -⟩ | ⟨pn, -, -, htr, -, -⟩ |
    ⟨pn, clv, s, rest, -, -, -, -, htr, -, -⟩
  · subst htr; simp
  · subst htr; simp
  · subst htr; simp
  · subst htr
    simp only [List.mem_cons, not_or]
    exact ⟨by simp, commitCycle_no_detach o.cycle1 cid⟩

theorem policyPhase_cosScan (o : ROracle) (vg : VG) (cid : Nat)
    (tr : List Event) (vg1 : VG) (r : Option RemoveErr)
    (h : policyPhase o vg cid = (tr, vg1, r)) (s0 : Bool) :
    cosScan cid s0 tr = true := by
  rcases policyPhase_cases o vg cid tr vg1 r h with
    ⟨-, htr, -, -⟩ | ⟨pn, -, -, htr, -, -⟩ | ⟨pn, -, -, htr, -, -⟩ |
    ⟨pn, clv, s, rest, -, -, -, -, htr, -, -⟩
  · subst htr; rfl
  · subst htr; rfl
  · subst htr; rfl
  · subst htr
    have := commitCycle_cosScan o.cycle1 cid s0
    simpa [cosScan, cosStep] using this

theorem policyPhase_none_shape (o : ROracle) (vg : VG) (cid : Nat)
    (tr1 : List Event) (vg1 : VG) (h : policyPhase o vg cid = (tr1, vg1, none)) :
    ∃ pn, o.policyName = some pn ∧
      ((pn = cleanerStr ∧ tr1 = [Event.policyInfo (some pn)] ∧ vg1 = vg) ∨
       (¬ pn = cleanerStr ∧ commitCycle o.cycle1 cid = (cycleEvents cid, none) ∧
         tr1 = Event.policyInfo (some pn) :: cycleEvents cid)) := by
  rcases policyPhase_cases o vg cid tr1 vg1 none h with
    ⟨-, -, -, hr⟩ | ⟨pn, hpn, hcl, htr, hvg, -⟩ | ⟨pn, -, -, -, -, hr⟩ |
    ⟨pn, clv, s, rest, hpn, hcl, hfd, hsg, htr, hvg, hr⟩
  · exact absurd hr.symm (by simp)
  · exact ⟨pn, hpn, Or.inl ⟨hcl, htr, hvg⟩⟩
  · exact absurd hr.symm (by simp)
  · have hcyc2 : (commitCycle o.cycle1 cid).2 = none := by
      rcases hmap : (commitCycle o.cycle1 cid).2 with _ | ce
      · rfl
      · rw [hmap] at hr; exact absurd hr.symm (by simp)
    have hpair : commitCycle o.cycle1 cid = ((commitCycle o.cycle1 cid).1, none) := by
      rw [← hcyc2]
    obtain ⟨htr1, -⟩ := commitCycle_none o.cycle1 cid _ hpair
    exact ⟨pn, hpn, Or.inr ⟨hcl, by rw [hpair, htr1], by rw [htr, htr1]⟩⟩

theorem flushLoop_no_detach (o : ROracle) (fuel k : Nat) (tr : List Event)
    (r : Option RemoveErr) (h : flushLoop o fuel k = some (tr, r)) :
    Event.detachPool ∉ tr := by
  intro hmem
  rcases (flushLoop_spec o fuel k tr r h).1 _ hmem with ⟨d, hd⟩ | hd <;> cases hd

theorem flushLoop_nonproto (o : ROracle) (fuel k : Nat) (tr : List Event)
    (r : Option RemoveErr) (h : flushLoop o fuel k = some (tr, r)) :
    ∀ e ∈ tr, isProto e = false := by
  intro e he
  rcases (flushLoop_spec o fuel k tr r h).1 e he with ⟨d, hd⟩ | hd <;> subst hd <;> rfl

theorem graphSurgery_err_surgery (o : ROracle) (vg : VG) (cid : Nat)
    (tr : List Event) (vg1 : VG) (e : RemoveErr)
    (h : graphSurgery o vg cid = (tr, vg1, Except.error e)) :
    isSurgeryErr e = true := by
  unfold graphSurgery at h
  repeat' (first | split at h | dsimp only at h)
  all_goals simp only [Prod.mk.injEq] at h
  all_goals first
    | exact absurd h.2.2 (fun hh => Except.noConfusion hh)
    | (rw [← Except.error.inj h.2.2]; rfl)

theorem graphSurgery_addVirtual_called (o : ROracle) (vg : VG) (cid : Nat)
    (tr : List Event) (vgx : VG) (r : Except RemoveErr (Nat × Nat))
    (h : graphSurgery o vg cid = (tr, vgx, r))
    (hb : Event.getSegtype errorStr false ∈ tr) :
    ∃ n, Event.addVirtualSegment none n ∈ tr := by
  unfold graphSurgery at h
  repeat' (first | split at h | dsimp only at h)
  all_goals simp only [Prod.mk.injEq] at h
  all_goals obtain ⟨htr, -, -⟩ := h
  all_goals subst htr
  all_goals simp_all

/-! ### Claim C8 -/

/-- C8: every precondition violation is reported immediately with no side
effects: `lv_cache_create` on a pool that is not a recognized cache pool
returns NULL with the volume group unchanged and no external call made;
`lv_cache_create` on an origin that is already cache-typed does the same;
and `lv_cache_remove` on a volume whose CACHE bit is clear fails immediately
with the distinct not-cache exit, an empty trace and an unchanged group. -/
theorem C8_precondition_failures (o : COracle) (fuel : Nat) (o2 : ROracle)
    (vg : VG) (pid oid nid cid : Nat) (pool origin clv : LV) :
    (vg.find pid = some pool → vg.find oid = some origin →
      lv_is_cache_pool pool = false →
      lv_cache_create o vg pid oid nid = ([], vg, none)) ∧
    (vg.find pid = some pool → vg.find oid = some origin →
      lv_is_cache_pool pool = true → lv_is_cache_type origin = true →
      lv_cache_create o vg pid oid nid = ([], vg, none)) ∧
    (vg.find cid = some clv → lv_is_cache clv = false →
      lv_cache_remove fuel o2 vg cid = some ([], vg, some RemoveErr.notCache)) := by
  refine ⟨?_, ?_, ?_⟩
  · intro h1 h2 h3
    simp [lv_cache_create, h1, h2, h3]
  · intro h1 h2 h3 h4
    simp [lv_cache_create, h1, h2, h3, h4]
  · intro h1 h2
    simp [lv_cache_remove, h1, h2]

/-- Concrete instantiation of C8: attaching with the plain origin in the
pool position fails cleanly; attaching the pool onto itself (a cache-typed
origin) fails cleanly; detaching the plain origin fails with the not-cache
exit. -/
theorem C8_precondition_failures_witness :
    lv_cache_create okC vg0 1 0 2 = ([], vg0, none) ∧
    lv_cache_create okC vg0 0 0 2 = ([], vg0, none) ∧
    lv_cache_remove 1 okR vg0 1 = some ([], vg0, some RemoveErr.notCache) :=
  ⟨(C8_precondition_failures okC 1 okR vg0 1 0 2 1 originLV poolLV originLV).1
      rfl rfl rfl,
   (C8_precondition_failures okC 1 okR vg0 0 0 2 1 poolLV poolLV originLV).2.1
      rfl rfl rfl rfl,
   (C8_precondition_failures okC 1 okR vg0 0 0 2 1 poolLV poolLV originLV).2.2
      rfl rfl⟩

/-! ### Claim C1 -/

theorem dzbScan_phases (tr1 tr2 tr3 tail : List Event)
    (h1 : Event.detachPool ∉ tr1) (h2n : Event.detachPool ∉ tr2)
    (h2 : ∀ p, lastOf p tr2 = some (Event.blockInfo (some 0)))
    (h3 : tr3 = [] ∨ ∃ rest, tr3 = Event.detachPool :: rest ∧ Event.detachPool ∉ rest)
    (h4 : Event.detachPool ∉ tail) :
    dzbScan none (tr1 ++ (tr2 ++ (tr3 ++ tail))) = true := by
  rw [dzbScan_append, dzbScan_append]
  rw [dzbScan_of_not_mem _ _ h1, dzbScan_of_not_mem _ _ h2n]
  rw [h2 (lastOf none tr1)]
  rcases h3 with h3 | ⟨rest, h3, h3n⟩
  · subst h3
    simp [dzbScan_of_not_mem _ _ h4]
  · subst h3
    have hrest : Event.detachPool ∉ rest ++ tail := by
      intro hm
      rcases List.mem_append.mp hm with hm | hm
      · exact h3n hm
      · exact h4 hm
    simp [dzbScan, dzbScan_of_not_mem _ _ hrest]

/-- C1: in every terminating run of `lv_cache_remove`, wherever the
pool-detach call appears in the trace, the event immediately before it is a
dirty-block query that returned exactly 0: the flush-wait loop re-queries
(sleeping between nonzero readings) and exits only at zero, so the pool
reference is never unlinked while the dirty-block count is nonzero. -/
theorem C1_dirty_zero_before_detach (fuel : Nat) (o : ROracle) (vg : VG)
    (cid : Nat) (tr : List Event) (vg2 : VG) (res : Option RemoveErr)
    (h : lv_cache_remove fuel o vg cid = some (tr, vg2, res)) :
    dzbScan none tr = true := by
  rcases remove_cases fuel o vg cid tr vg2 res h with
    ⟨-, htr, -, -⟩ |
    ⟨clv, -, -, htr, -, -⟩ |
    ⟨e1, hpp, -⟩ |
    ⟨tr1, vg1, tr2, e2, hpp, hfl, htr, -, -⟩ |
    ⟨tr1, vg1, tr2, tr3, e3, hpp, hfl, hgs, htr, -⟩ |
    ⟨tr1, vg1, tr2, tr3, pid, oid, tr4, ce, hpp, hfl, hgs, hcc, htr, -⟩ |
    ⟨tr1, vg1, tr2, tr3, pid, oid, hpp, hfl, hgs, hcc, hsub⟩ |
    ⟨tr1, vg1, tr2, tr3, vg3, pid, oid, hpp, hfl, hgs, hcc, -, -, -, -, htr, -, -⟩
  · subst htr; rfl
  · subst htr; rfl
  · exact dzbScan_of_not_mem _ _ (policyPhase_no_detach o vg cid tr vg2 _ hpp)
  · subst htr
    refine dzbScan_of_not_mem _ _ ?_
    intro hm
    rcases List.mem_append.mp hm with hm | hm
    · exact policyPhase_no_detach o vg cid tr1 vg1 _ hpp hm
    · exact flushLoop_no_detach o fuel 0 tr2 _ hfl hm
  · have htr3 := (graphSurgery_trace o vg1 cid).1
    rw [hgs] at htr3
    have := dzbScan_phases tr1 tr2 tr3 []
      (policyPhase_no_detach o vg cid tr1 vg1 _ hpp)
      (flushLoop_no_detach o fuel 0 tr2 _ hfl)
      ((flushLoop_spec o fuel 0 tr2 none hfl).2.1 rfl)
      htr3 (by simp)
    subst htr
    simpa using this
  · have htr3 := (graphSurgery_trace o vg1 cid).1
    rw [hgs] at htr3
    have htr4 : Event.detachPool ∉ tr4 := by
      have := commitCycle_no_detach o.cycle2 cid
      rw [hcc] at this
      exact this
    have := dzbScan_phases tr1 tr2 tr3 tr4
      (policyPhase_no_detach o vg cid tr1 vg1 _ hpp)
      (flushLoop_no_detach o fuel 0 tr2 _ hfl)
      ((flushLoop_spec o fuel 0 tr2 none hfl).2.1 rfl)
      htr3 htr4
    subst htr
    simpa using this
  · have htr3 := (graphSurgery_trace o vg1 cid).1
    rw [hgs] at htr3
    have hpp1 := policyPhase_no_detach o vg cid tr1 vg1 _ hpp
    have hfl1 := flushLoop_no_detach o fuel 0 tr2 _ hfl
    have hfl2 := (flushLoop_spec o fuel 0 tr2 none hfl).2.1 rfl
    rcases hsub with ⟨-, htr, -⟩ | ⟨-, -, htr, -⟩ | ⟨-, -, -, htr, -⟩ | ⟨-, -, -, -, htr, -⟩ <;>
      subst htr <;>
      [have := dzbScan_phases tr1 tr2 tr3
         (cycleEvents cid ++ [Event.resumeLV pid false]) hpp1 hfl1 hfl2 htr3 (by
           intro hm
           rcases List.mem_append.mp hm with hm | hm
           · exact cycleEvents_no_detach cid hm
           · simp at hm);
       have := dzbScan_phases tr1 tr2 tr3
         (cycleEvents cid ++ [Event.resumeLV pid true, Event.activateLV oid false])
         hpp1 hfl1 hfl2 htr3 (by
           intro hm
           rcases List.mem_append.mp hm with hm | hm
           · exact cycleEvents_no_detach cid hm
           · simp at hm);
       have := dzbScan_phases tr1 tr2 tr3
         (cycleEvents cid ++ [Event.resumeLV pid true, Event.activateLV oid true,
           Event.deactivateLV oid false]) hpp1 hfl1 hfl2 htr3 (by
           intro hm
           rcases List.mem_append.mp hm with hm | hm
           · exact cycleEvents_no_detach cid hm
           · simp at hm);
       have := dzbScan_phases tr1 tr2 tr3
         (cycleEvents cid ++ [Event.resumeLV pid true, Event.activateLV oid true,
           Event.deactivateLV oid true, Event.lvRemoveEv oid false])
         hpp1 hfl1 hfl2 htr3 (by
           intro hm
           rcases List.mem_append.mp hm with hm | hm
           · exact cycleEvents_no_detach cid hm
           · simp at hm)] <;>
      simpa using this
  · have htr3 := (graphSurgery_trace o vg1 cid).1
    rw [hgs] at htr3
    have := dzbScan_phases tr1 tr2 tr3
      (cycleEvents cid ++ [Event.resumeLV pid true, Event.activateLV oid true,
        Event.deactivateLV oid true, Event.lvRemoveEv oid true])
      (policyPhase_no_detach o vg cid tr1 vg1 _ hpp)
      (flushLoop_no_detach o fuel 0 tr2 _ hfl)
      ((flushLoop_spec o fuel 0 tr2 none hfl).2.1 rfl)
      htr3 (by
        intro hm
        rcases List.mem_append.mp hm with hm | hm
        · exact cycleEvents_no_detach cid hm
        · simp at hm)
    subst htr
    simpa using this

/-- Concrete instantiation of C1: a full detach whose dirty query reports 7
blocks twice before reaching 0 satisfies the scan. -/
theorem C1_dirty_zero_before_detach_witness :
    ∃ tr vg2 res, lv_cache_remove 3 dirtyR vgAtt 1 = some (tr, vg2, res) ∧
      dzbScan none tr = true :=
  ⟨_, _, _, rfl, C1_dirty_zero_before_detach 3 dirtyR vgAtt 1 _ _ _ rfl⟩

/-! ### Claim C9 -/

theorem surgery_not_flush_err (e : RemoveErr) (h : isSurgeryErr e = true) :
    isFlushPhaseErr e = false := by
  cases e <;> first | rfl | (exact absurd h (by simp [isSurgeryErr]))

theorem graphProj_policy_swap (vg : VG) (cid : Nat) (clv : LV) (s : LVSeg)
    (rest : List LVSeg) (hfd : vg.find cid = some clv)
    (hsg : clv.segments = s :: rest) :
    ∀ i, ((vg.set cid { clv with segments :=
        { s with policy_name := some cleanerStr, policy_argc := 0,
                 policy_argv := [] } :: rest }).find i).map lvGraphProj =
      (vg.find i).map lvGraphProj := by
  intro i
  rw [VG.find_set]
  by_cases hi : i = cid
  · subst hi
    rw [if_pos rfl, hfd]
    simp [lvGraphProj, segGraphProj, hsg]
  · rw [if_neg hi]

/-- C9: every failure of a query or commit-protocol step during the
flush-and-wait phase of detach (policy query, metadata write, suspend,
commit or resume of the policy-change cycle, or dirty-block query) aborts
`lv_cache_remove` with no graph mutation performed yet: the resulting
in-memory state agrees with the initial one on the graph-structural content
of every volume (name, status, segment types, lengths, pool references,
sub-volumes, extent counts, back-references) — only the in-memory cache
policy fields, which this phase exists to change, may differ — so retrying
the detach from scratch is safe. -/
theorem C9_flush_failure_no_graph_mutation (fuel : Nat) (o : ROracle)
    (vg : VG) (cid : Nat) (tr : List Event) (vg2 : VG) (e : RemoveErr)
    (h : lv_cache_remove fuel o vg cid = some (tr, vg2, some e))
    (he : isFlushPhaseErr e = true) :
    ∀ i, (vg2.find i).map lvGraphProj = (vg.find i).map lvGraphProj := by
  rcases remove_cases fuel o vg cid tr vg2 (some e) h with
    ⟨-, -, hvg, hres⟩ |
    ⟨clv, -, -, -, hvg, hres⟩ |
    ⟨e1, hpp, hres⟩ |
    ⟨tr1, vg1, tr2, e2, hpp, hfl, -, hvg, hres⟩ |
    ⟨tr1, vg1, tr2, tr3, e3, hpp, hfl, hgs, -, hres⟩ |
    ⟨tr1, vg1, tr2, tr3, pid, oid, tr4, ce, -, -, -, -, -, hres⟩ |
    ⟨tr1, vg1, tr2, tr3, pid, oid, -, -, -, -, hsub⟩ |
    ⟨tr1, vg1, tr2, tr3, vg3, pid, oid, -, -, -, -, -, -, -, -, -, -, hres⟩
  · injection hres with hres2; subst hres2; simp [isFlushPhaseErr] at he
  · injection hres with hres2; subst hres2; simp [isFlushPhaseErr] at he
  · injection hres with hres2; subst hres2
    rcases policyPhase_cases o vg cid tr vg2 (some e) hpp with
      ⟨-, -, hvg, -⟩ | ⟨pn, -, -, -, -, hr⟩ | ⟨pn, -, -, -, -, hr⟩ |
      ⟨pn, clv, s, rest, -, -, hfd, hsg, -, hvg, -⟩
    · subst hvg; intro i; rfl
    · exact absurd hr (by simp)
    · injection hr with hr2; subst hr2; simp [isFlushPhaseErr] at he
    · subst hvg
      exact graphProj_policy_swap vg cid clv s rest hfd hsg
  · injection hres with hres2; subst hres2
    subst hvg
    rcases policyPhase_cases o vg cid tr1 vg2 none hpp with
      ⟨-, -, -, hr⟩ | ⟨pn, -, -, -, hvg1, -⟩ | ⟨pn, -, -, -, -, hr⟩ |
      ⟨pn, clv, s, rest, -, -, hfd, hsg, -, hvg1, -⟩
    · exact absurd hr.symm (by simp)
    · subst hvg1; intro i; rfl
    · exact absurd hr.symm (by simp)
    · subst hvg1
      exact graphProj_policy_swap vg cid clv s rest hfd hsg
  · injection hres with hres2; subst hres2
    have := surgery_not_flush_err e (graphSurgery_err_surgery o vg1 cid tr3 vg2 e hgs)
    rw [this] at he
    cases he
  · injection hres with hres2; subst hres2; simp [isFlushPhaseErr] at he
  · rcases hsub with ⟨-, -, hres⟩ | ⟨-, -, -, hres⟩ | ⟨-, -, -, -, hres⟩ |
      ⟨-, -, -, -, -, hres⟩ <;>
      (injection hres with hres2; subst hres2; simp [isFlushPhaseErr] at he)
  · exact absurd hres (by simp)

/-- Concrete instantiation of C9: when the metadata write of the
policy-change cycle fails, the aborted detach leaves every volume's
graph-structural content unchanged. -/
theorem C9_flush_failure_no_graph_mutation_witness :
    ∃ tr vg2, lv_cache_remove 1 writeFailR vgAtt 1 =
        some (tr, vg2, some (RemoveErr.cycleA CycleErr.writeFail)) ∧
      ∀ i, (vg2.find i).map lvGraphProj = (vgAtt.find i).map lvGraphProj :=
  ⟨_, _, rfl,
   C9_flush_failure_no_graph_mutation 1 writeFailR vgAtt 1 _ _ _ rfl rfl⟩

/-! ### Claim C6 -/

/-- C6: at the start of detach, with queried policy name `pn`: if `pn` is
not "cleaner", the first segment's policy is swapped to "cleaner" with its
arguments cleared (argument count zero, empty argument list) and one
commit-protocol cycle is run to make the change live — the full
write-suspend-commit-resume sequence whenever that cycle succeeds; if `pn`
is already "cleaner", the phase makes no policy swap, no state change at
all, and runs no commit cycle before the dirty-block wait. -/
theorem C6_policy_swap_to_cleaner (o : ROracle) (vg : VG) (cid : Nat)
    (clv : LV) (s : LVSeg) (rest : List LVSeg) (pn : String)
    (hfd : vg.find cid = some clv) (hsg : clv.segments = s :: rest)
    (hpn : o.policyName = some pn) :
    (pn = cleanerStr →
      policyPhase o vg cid = ([Event.policyInfo (some pn)], vg, none)) ∧
    (¬ pn = cleanerStr →
      policyPhase o vg cid =
        (Event.policyInfo (some pn) :: (commitCycle o.cycle1 cid).1,
         vg.set cid { clv with segments :=
           { s with policy_name := some cleanerStr, policy_argc := 0,
                    policy_argv := [] } :: rest },
         (commitCycle o.cycle1 cid).2.map RemoveErr.cycleA) ∧
      ((commitCycle o.cycle1 cid).2 = none →
        (commitCycle o.cycle1 cid).1 = cycleEvents cid)) := by
  constructor
  · intro hcl
    simp [policyPhase, hpn, hcl]
  · intro hcl
    constructor
    · simp [policyPhase, hpn, hcl, hfd, hsg]
    · intro h2
      have hpair : commitCycle o.cycle1 cid = ((commitCycle o.cycle1 cid).1, none) := by
        rw [← h2]
      exact (commitCycle_none o.cycle1 cid _ hpair).1

/-- Concrete instantiation of C6: on the attached state with reported policy
"mq", the phase swaps the policy to "cleaner" with cleared arguments and
runs the full commit cycle. -/
theorem C6_policy_swap_to_cleaner_witness :
    ∃ clv s rest, vgAtt.find 1 = some clv ∧ clv.segments = s :: rest ∧
      policyPhase okR vgAtt 1 =
        (Event.policyInfo (some mqStr) :: (commitCycle okR.cycle1 1).1,
         vgAtt.set 1 { clv with segments :=
           { s with policy_name := some cleanerStr, policy_argc := 0,
                    policy_argv := [] } :: rest },
         (commitCycle okR.cycle1 1).2.map RemoveErr.cycleA) :=
  ⟨_, _, _, rfl, rfl,
   ((C6_policy_swap_to_cleaner okR vgAtt 1 _ _ _ mqStr rfl rfl rfl).2
     (by decide)).1⟩

/-! ### Claim C7 -/

theorem policyPhase_no_getSegtype (o : ROracle) (vg : VG) (cid : Nat)
    (tr : List Event) (vg1 : VG) (r : Option RemoveErr)
    (h : policyPhase o vg cid = (tr, vg1, r)) (nm : String) (b : Bool) :
    Event.getSegtype nm b ∉ tr := by
  rcases policyPhase_cases o vg cid tr vg1 r h with
    ⟨-, htr, -, -⟩ | ⟨pn, -, -, htr, -, -⟩ | ⟨pn, -, -, htr, -, -⟩ |
    ⟨pn, clv, s, rest, -, -, -, -, htr, -, -⟩
  · subst htr; simp
  · subst htr; simp
  · subst htr; simp
  · subst htr
    simp only [List.mem_cons, not_or]
    refine ⟨by simp, fun hm => ?_⟩
    have := commitCycle_proto o.cycle1 cid _ hm
    cases this

theorem mem_concat3 {e : Event} {l1 l2 l3 : List Event}
    (hm : e ∈ l1 ++ l2 ++ l3) : e ∈ l1 ∨ e ∈ l2 ∨ e ∈ l3 := by
  simp only [List.mem_append] at hm
  tauto

theorem mem_concat4 {e : Event} {l1 l2 l3 l4 : List Event}
    (hm : e ∈ l1 ++ l2 ++ l3 ++ l4) : e ∈ l1 ∨ e ∈ l2 ∨ e ∈ l3 ∨ e ∈ l4 := by
  simp only [List.mem_append] at hm
  tauto

theorem mem_concat5 {e : Event} {l1 l2 l3 l4 l5 : List Event}
    (hm : e ∈ l1 ++ l2 ++ l3 ++ l4 ++ l5) :
    e ∈ l1 ∨ e ∈ l2 ∨ e ∈ l3 ∨ e ∈ l4 ∨ e ∈ l5 := by
  simp only [List.mem_append] at hm
  tauto

theorem cycleEvents_proto (lvid : Nat) :
    ∀ e ∈ cycleEvents lvid, isProto e = true := by
  simp [cycleEvents, isProto]

/-- C7: when a step of either commit-protocol cycle fails, the controller
stops at exactly that step: the run's trace is some prefix followed by the
cycle's calls up to and including the failing one, and that failing call is
the very last event of the run — so after a commit failure (which can only
follow a successful suspend) there is no resume call (no auto-resume), no
repetition of any step (no retry), and no further action at all (no
rollback).  Each step's failure is surfaced as its own distinct error value
(`cycleA`/`cycleB` wrapping write, suspend, commit or resume failure),
matching exactly which oracle outcome failed. -/
theorem C7_commit_failure_propagation (fuel : Nat) (o : ROracle) (vg : VG)
    (cid : Nat) (tr : List Event) (vg2 : VG) (res : Option RemoveErr)
    (ce : CycleErr)
    (h : lv_cache_remove fuel o vg cid = some (tr, vg2, res))
    (hres : res = some (RemoveErr.cycleA ce) ∨ res = some (RemoveErr.cycleB ce)) :
    (∃ pre, tr = pre ++ cycleFailTrace cid ce) ∧
    lastOf none tr = some (cycleFailEvent cid ce) ∧
    (res = some (RemoveErr.cycleA ce) → cycleErrMatches o.cycle1 ce) ∧
    (res = some (RemoveErr.cycleB ce) → cycleErrMatches o.cycle2 ce) := by
  rcases remove_cases fuel o vg cid tr vg2 res h with
    ⟨-, -, -, hresD⟩ |
    ⟨clv, -, -, -, -, hresD⟩ |
    ⟨e1, hpp, hresD⟩ |
    ⟨tr1, vg1, tr2, e2, hpp, hfl, -, -, hresD⟩ |
    ⟨tr1, vg1, tr2, tr3, e3, hpp, hfl, hgs, -, hresD⟩ |
    ⟨tr1, vg1, tr2, tr3, pid, oid, tr4, ce2, hpp, hfl, hgs, hcc, htr, hresD⟩ |
    ⟨tr1, vg1, tr2, tr3, pid, oid, -, -, -, -, hsub⟩ |
    ⟨tr1, vg1, tr2, tr3, vg3, pid, oid, -, -, -, -, -, -, -, -, -, -, hresD⟩
  · rcases hres with h2 | h2 <;> rw [hresD] at h2 <;>
      exact absurd (Option.some.inj h2) (by simp)
  · rcases hres with h2 | h2 <;> rw [hresD] at h2 <;>
      exact absurd (Option.some.inj h2) (by simp)
  · rcases policyPhase_cases o vg cid tr vg2 (some e1) hpp with
      ⟨-, -, -, hr⟩ | ⟨pn, -, -, -, -, hr⟩ | ⟨pn, -, -, -, -, hr⟩ |
      ⟨pn, clv, s, rest, -, -, -, -, htr, -, hr⟩
    · have he1 := Option.some.inj hr
      rw [hresD, he1] at hres
      rcases hres with h2 | h2 <;> exact absurd (Option.some.inj h2) (by simp)
    · exact absurd hr (by simp)
    · have he1 := Option.some.inj hr
      rw [hresD, he1] at hres
      rcases hres with h2 | h2 <;> exact absurd (Option.some.inj h2) (by simp)
    · rcases hmap : (commitCycle o.cycle1 cid).2 with - | ce2
      · rw [hmap] at hr; exact absurd hr (by simp)
      · rw [hmap] at hr
        have hece : e1 = RemoveErr.cycleA ce2 := Option.some.inj hr
        have hce2 : ce2 = ce := by
          rcases hres with h2 | h2 <;> rw [hresD, hece] at h2
          · exact RemoveErr.cycleA.inj (Option.some.inj h2)
          · exact absurd (Option.some.inj h2) (by simp)
        subst hce2
        have hpair : commitCycle o.cycle1 cid =
            ((commitCycle o.cycle1 cid).1, some ce2) := by rw [← hmap]
        obtain ⟨hft, hmat⟩ := commitCycle_some o.cycle1 cid _ ce2 hpair
        refine ⟨⟨[Event.policyInfo (some pn)], by rw [htr, hft]; rfl⟩, ?_, ?_, ?_⟩
        · rw [htr, hft]
          exact lastOf_cycleFailTrace cid ce2 _
        · intro _; exact hmat
        · intro hx
          rw [hresD, hece] at hx
          exact absurd (Option.some.inj hx) (by simp)
  · have he2 : e2 = RemoveErr.blockInfoFail :=
      (flushLoop_spec o fuel 0 tr2 (some e2) hfl).2.2 e2 rfl
    rw [he2] at hresD
    rcases hres with h2 | h2 <;> rw [hresD] at h2 <;>
      exact absurd (Option.some.inj h2) (by simp)
  · have hs := graphSurgery_err_surgery o vg1 cid tr3 vg2 e3 hgs
    rcases hres with h2 | h2 <;> rw [hresD] at h2 <;>
      rw [Option.some.inj h2] at hs <;> simp [isSurgeryErr] at hs
  · have hce2 : ce2 = ce := by
      rcases hres with h2 | h2 <;> rw [hresD] at h2
      · exact absurd (Option.some.inj h2) (by simp)
      · exact RemoveErr.cycleB.inj (Option.some.inj h2)
    subst hce2
    obtain ⟨hft, hmat⟩ := commitCycle_some o.cycle2 cid tr4 ce2 hcc
    refine ⟨⟨tr1 ++ tr2 ++ tr3, by rw [htr, hft]⟩, ?_, ?_, ?_⟩
    · rw [htr, hft]
      simp only [lastOf_append]
      exact lastOf_cycleFailTrace cid ce2 _
    · intro hx
      rw [hresD] at hx
      exact absurd (Option.some.inj hx) (by simp)
    · intro _; exact hmat
  · rcases hsub with ⟨-, -, hresD⟩ | ⟨-, -, -, hresD⟩ | ⟨-, -, -, -, hresD⟩ |
      ⟨-, -, -, -, -, hresD⟩ <;>
      (rcases hres with h2 | h2 <;> rw [hresD] at h2 <;>
        exact absurd (Option.some.inj h2) (by simp))
  · rcases hres with h2 | h2 <;> rw [hresD] at h2 <;> exact absurd h2 (by simp)

/-- Concrete instantiation of C7: a detach whose final commit fails after a
successful suspend ends at the failing commit call, with no resume after
it. -/
theorem C7_commit_failure_propagation_witness :
    ∃ tr vg2, lv_cache_remove 1 commitFailR vgAtt 1 =
        some (tr, vg2, some (RemoveErr.cycleB CycleErr.commitFail)) ∧
      (∃ pre, tr = pre ++ cycleFailTrace 1 CycleErr.commitFail) ∧
      lastOf none tr = some (Event.vgCommit false) ∧
      cycleErrMatches commitFailR.cycle2 CycleErr.commitFail := by
  have h := C7_commit_failure_propagation 1 commitFailR vgAtt 1 _ _ _
    CycleErr.commitFail rfl (Or.inr rfl)
  exact ⟨_, _, rfl, h.1, h.2.1, h.2.2.2 rfl⟩

/-! ### Claim C10 -/

/-- C10: the result of resolving the "error" segment type in detach is used
without a failure check: in every run of `lv_cache_remove` whose trace shows
the "error" segment-type lookup returning the null handle, the
placeholder-segment-install primitive is nevertheless invoked, and with the
null type handle as its segment-type argument — detach does not fail at the
resolution step.  By contrast `lv_cache_create` fails fast when the "cache"
segment-type lookup fails: it returns NULL with no layer insertion
performed. -/
theorem C10_error_segtype_unchecked (fuel : Nat) (o : ROracle) (vg : VG)
    (cid : Nat) (tr : List Event) (vg2 : VG) (res : Option RemoveErr)
    (h : lv_cache_remove fuel o vg cid = some (tr, vg2, res))
    (hreach : Event.getSegtype errorStr false ∈ tr) :
    (∃ n, Event.addVirtualSegment none n ∈ tr) ∧
    (∀ (o1 : COracle) (vgc : VG) (p oi ni : Nat), o1.cacheSegtypeOk = false →
      (lv_cache_create o1 vgc p oi ni).2.2 = none ∧
      Event.insertLayer true ∉ (lv_cache_create o1 vgc p oi ni).1) := by
  constructor
  · rcases remove_cases fuel o vg cid tr vg2 res h with
      ⟨-, htr, -, -⟩ |
      ⟨clv, -, -, htr, -, -⟩ |
      ⟨e1, hpp, -⟩ |
      ⟨tr1, vg1, tr2, e2, hpp, hfl, htr, -, -⟩ |
      ⟨tr1, vg1, tr2, tr3, e3, hpp, hfl, hgs, htr, -⟩ |
      ⟨tr1, vg1, tr2, tr3, pid, oid, tr4, ce, hpp, hfl, hgs, hcc, htr, -⟩ |
      ⟨tr1, vg1, tr2, tr3, pid, oid, hpp, hfl, hgs, hcc, hsub⟩ |
      ⟨tr1, vg1, tr2, tr3, vg3, pid, oid, hpp, hfl, hgs, hcc, -, -, -, -, htr, -, -⟩
    · subst htr; simp at hreach
    · subst htr; simp at hreach
    · exact absurd hreach (policyPhase_no_getSegtype o vg cid tr vg2 _ hpp _ _)
    · subst htr
      rcases List.mem_append.mp hreach with hm | hm
      · exact absurd hm (policyPhase_no_getSegtype o vg cid tr1 vg1 _ hpp _ _)
      · rcases (flushLoop_spec o fuel 0 tr2 _ hfl).1 _ hm with ⟨d, hd⟩ | hd <;> cases hd
    · subst htr
      rcases mem_concat3 hreach with hm | hm | hm
      · exact absurd hm (policyPhase_no_getSegtype o vg cid tr1 vg1 _ hpp _ _)
      · rcases (flushLoop_spec o fuel 0 tr2 _ hfl).1 _ hm with ⟨d, hd⟩ | hd <;> cases hd
      · obtain ⟨n, hn⟩ := graphSurgery_addVirtual_called o vg1 cid tr3 vg2 _ hgs hm
        exact ⟨n, by simp [hn]⟩
    · subst htr
      rcases mem_concat4 hreach with hm | hm | hm | hm
      · exact absurd hm (policyPhase_no_getSegtype o vg cid tr1 vg1 _ hpp _ _)
      · rcases (flushLoop_spec o fuel 0 tr2 _ hfl).1 _ hm with ⟨d, hd⟩ | hd <;> cases hd
      · obtain ⟨n, hn⟩ := graphSurgery_addVirtual_called o vg1 cid tr3 vg2 _ hgs hm
        exact ⟨n, by simp [hn]⟩
      · exfalso
        have hproto := commitCycle_proto o.cycle2 cid
        rw [hcc] at hproto
        have h5 := hproto _ hm
        simp [isProto] at h5
    · rcases hsub with ⟨-, htr, -⟩ | ⟨-, -, htr, -⟩ | ⟨-, -, -, htr, -⟩ |
        ⟨-, -, -, -, htr, -⟩ <;> subst htr <;>
        (rcases mem_concat5 hreach with hm | hm | hm | hm | hm
         · exact absurd hm (policyPhase_no_getSegtype o vg cid tr1 vg1 _ hpp _ _)
         · rcases (flushLoop_spec o fuel 0 tr2 _ hfl).1 _ hm with ⟨d, hd⟩ | hd <;> cases hd
         · obtain ⟨n, hn⟩ := graphSurgery_addVirtual_called o vg1 cid tr3 vg2 _ hgs hm
           exact ⟨n, by simp [hn]⟩
         · (have h5 := cycleEvents_proto cid _ hm; simp [isProto] at h5)
         · simp at hm)
    · subst htr
      rcases mem_concat5 hreach with hm | hm | hm | hm | hm
      · exact absurd hm (policyPhase_no_getSegtype o vg cid tr1 vg1 _ hpp _ _)
      · rcases (flushLoop_spec o fuel 0 tr2 _ hfl).1 _ hm with ⟨d, hd⟩ | hd <;> cases hd
      · obtain ⟨n, hn⟩ := graphSurgery_addVirtual_called o vg1 cid tr3 vg3 _ hgs hm
        exact ⟨n, by simp [hn]⟩
      · have h5 := cycleEvents_proto cid _ hm
        simp [isProto] at h5
      · simp at hm
  · intro o1 vgc p oi ni hfalse
    unfold lv_cache_create
    repeat' split <;> simp_all

/-- Concrete instantiation of C10: with the "error" segment-type lookup
failing, detach still calls the placeholder-install primitive with the null
handle; attach with the "cache" lookup failing stops at the lookup. -/
theorem C10_error_segtype_unchecked_witness :
    ∃ tr vg2 res, lv_cache_remove 1 noErrSegR vgAtt 1 = some (tr, vg2, res) ∧
      Event.getSegtype errorStr false ∈ tr ∧
      (∃ n, Event.addVirtualSegment none n ∈ tr) ∧
      (lv_cache_create noCacheSegC vg0 0 1 2).2.2 = none := by
  have h := C10_error_segtype_unchecked 1 noErrSegR vgAtt 1 _ _ _ rfl
    (by decide)
  exact ⟨_, _, _, rfl, by decide, h.1, (h.2 noCacheSegC vg0 0 1 2 rfl).1⟩

/-! ### Claim C2 -/

theorem cosScan_concat (primary : Nat) (l1 l2 : List Event)
    (h1 : ∀ s0, cosScan primary s0 l1 = true)
    (h2 : ∀ s0, cosScan primary s0 l2 = true) :
    ∀ s0, cosScan primary s0 (l1 ++ l2) = true := by
  intro s0
  simp [cosScan_append, h1, h2]

theorem cycleEvents_cosScan (lvid : Nat) (s0 : Bool) :
    cosScan lvid s0 (cycleEvents lvid) = true := by
  simp [cycleEvents, cosScan, cosStep]

theorem filter_nonproto (l : List Event) (h : ∀ e ∈ l, isProto e = false) :
    l.filter isProto = [] := by
  induction l with
  | nil => rfl
  | cons e t ih =>
    have he := h e (List.mem_cons_self e t)
    rw [List.filter_cons, he]
    simp only [Bool.false_eq_true, if_false]
    exact ih (fun x hx => h x (List.mem_cons_of_mem e hx))

/-- C2: the suspension discipline and protocol order of detach.  First, in
every terminating run, every metadata-commit call happens while the primary
volume is suspended (successfully suspended, not yet resumed) — the commit
step never occurs while the volume is not suspended.  Second, on success the
protocol-event subsequence of the trace is exactly one full
write-suspend-commit-resume cycle for the policy push (absent when the
policy was already "cleaner"), followed by exactly the final full
write-suspend-commit-resume cycle of the graph change, followed by one
separate, explicit resume of the cache-pool volume — with no step skipped,
repeated or reordered. -/
theorem C2_commit_protocol_order (fuel : Nat) (o : ROracle) (vg : VG)
    (cid : Nat) (tr : List Event) (vg2 : VG) (res : Option RemoveErr)
    (h : lv_cache_remove fuel o vg cid = some (tr, vg2, res)) :
    cosScan cid false tr = true ∧
    (res = none → ∃ pn pid, o.policyName = some pn ∧
      tr.filter isProto =
        (if pn = cleanerStr then [] else cycleEvents cid) ++ cycleEvents cid ++
          [Event.resumeLV pid true]) := by
  rcases remove_cases fuel o vg cid tr vg2 res h with
    ⟨-, htr, -, hresD⟩ |
    ⟨clv, -, -, htr, -, hresD⟩ |
    ⟨e1, hpp, hresD⟩ |
    ⟨tr1, vg1, tr2, e2, hpp, hfl, htr, -, hresD⟩ |
    ⟨tr1, vg1, tr2, tr3, e3, hpp, hfl, hgs, htr, hresD⟩ |
    ⟨tr1, vg1, tr2, tr3, pid, oid, tr4, ce, hpp, hfl, hgs, hcc, htr, hresD⟩ |
    ⟨tr1, vg1, tr2, tr3, pid, oid, hpp, hfl, hgs, hcc, hsub⟩ |
    ⟨tr1, vg1, tr2, tr3, vg3, pid, oid, hpp, hfl, hgs, hcc, -, -, -, -, htr,
     -, hresD⟩
  · subst htr
    exact ⟨rfl, fun hn => absurd hresD (by rw [hn]; simp)⟩
  · subst htr
    exact ⟨rfl, fun hn => absurd hresD (by rw [hn]; simp)⟩
  · exact ⟨policyPhase_cosScan o vg cid tr vg2 _ hpp false,
      fun hn => absurd hresD (by rw [hn]; simp)⟩
  · subst htr
    refine ⟨?_, fun hn => absurd hresD (by rw [hn]; simp)⟩
    exact cosScan_concat cid tr1 tr2
      (policyPhase_cosScan o vg cid tr1 vg1 _ hpp)
      (fun s0 => cosScan_of_nonproto cid s0 tr2 (flushLoop_nonproto o fuel 0 tr2 _ hfl))
      false
  · subst htr
    refine ⟨?_, fun hn => absurd hresD (by rw [hn]; simp)⟩
    have h3 : ∀ s0, cosScan cid s0 tr3 = true := by
      intro s0
      refine cosScan_of_nonproto cid s0 tr3 ?_
      have := (graphSurgery_trace o vg1 cid).2
      rw [hgs] at this
      exact this
    exact cosScan_concat cid (tr1 ++ tr2) tr3
      (cosScan_concat cid tr1 tr2
        (policyPhase_cosScan o vg cid tr1 vg1 _ hpp)
        (fun s0 => cosScan_of_nonproto cid s0 tr2 (flushLoop_nonproto o fuel 0 tr2 _ hfl)))
      h3 false
  · subst htr
    refine ⟨?_, fun hn => absurd hresD (by rw [hn]; simp)⟩
    have h3 : ∀ s0, cosScan cid s0 tr3 = true := by
      intro s0
      refine cosScan_of_nonproto cid s0 tr3 ?_
      have := (graphSurgery_trace o vg1 cid).2
      rw [hgs] at this
      exact this
    have h4 : ∀ s0, cosScan cid s0 tr4 = true := by
      intro s0
      have := commitCycle_cosScan o.cycle2 cid s0
      rw [hcc] at this
      exact this
    exact cosScan_concat cid (tr1 ++ tr2 ++ tr3) tr4
      (cosScan_concat cid (tr1 ++ tr2) tr3
        (cosScan_concat cid tr1 tr2
          (policyPhase_cosScan o vg cid tr1 vg1 _ hpp)
          (fun s0 => cosScan_of_nonproto cid s0 tr2
            (flushLoop_nonproto o fuel 0 tr2 _ hfl)))
        h3) h4 false
  · have h1 := policyPhase_cosScan o vg cid tr1 vg1 _ hpp
    have h2 : ∀ s0, cosScan cid s0 tr2 = true :=
      fun s0 => cosScan_of_nonproto cid s0 tr2 (flushLoop_nonproto o fuel 0 tr2 _ hfl)
    have h3 : ∀ s0, cosScan cid s0 tr3 = true := by
      intro s0
      refine cosScan_of_nonproto cid s0 tr3 ?_
      have := (graphSurgery_trace o vg1 cid).2
      rw [hgs] at this
      exact this
    have h4 : ∀ s0, cosScan cid s0 (cycleEvents cid) = true := cycleEvents_cosScan cid
    rcases hsub with ⟨-, htr, hresD⟩ | ⟨-, -, htr, hresD⟩ | ⟨-, -, -, htr, hresD⟩ |
      ⟨-, -, -, -, htr, hresD⟩ <;> subst htr <;>
      refine ⟨?_, fun hn => absurd hresD (by rw [hn]; simp)⟩ <;>
      exact cosScan_concat cid _ _
        (cosScan_concat cid _ _
          (cosScan_concat cid _ _ (cosScan_concat cid _ _ h1 h2) h3) h4)
        (fun s0 => by simp [cosScan, cosStep]) false
  · subst htr
    have h1 := policyPhase_cosScan o vg cid tr1 vg1 _ hpp
    have h2 : ∀ s0, cosScan cid s0 tr2 = true :=
      fun s0 => cosScan_of_nonproto cid s0 tr2 (flushLoop_nonproto o fuel 0 tr2 _ hfl)
    have h3 : ∀ s0, cosScan cid s0 tr3 = true := by
      intro s0
      refine cosScan_of_nonproto cid s0 tr3 ?_
      have := (graphSurgery_trace o vg1 cid).2
      rw [hgs] at this
      exact this
    constructor
    · exact cosScan_concat cid _ _
        (cosScan_concat cid _ _
          (cosScan_concat cid _ _ (cosScan_concat cid _ _ h1 h2) h3)
          (cycleEvents_cosScan cid))
        (fun s0 => by simp [cosScan, cosStep]) false
    · intro _
      obtain ⟨pn, hpn, hshape⟩ := policyPhase_none_shape o vg cid tr1 vg1 hpp
      refine ⟨pn, pid, hpn, ?_⟩
      have hf2 : tr2.filter isProto = [] :=
        filter_nonproto tr2 (flushLoop_nonproto o fuel 0 tr2 _ hfl)
      have hf3 : tr3.filter isProto = [] := by
        refine filter_nonproto tr3 ?_
        have := (graphSurgery_trace o vg1 cid).2
        rw [hgs] at this
        exact this
      have hf5 : [Event.resumeLV pid true, Event.activateLV oid true,
          Event.deactivateLV oid true, Event.lvRemoveEv oid true].filter isProto =
          [Event.resumeLV pid true] := rfl
      rcases hshape with ⟨hcl, htr1, -⟩ | ⟨hcl, -, htr1⟩
      · subst htr1
        rw [if_pos hcl]
        simp [List.filter_append, hf2, hf3, hf5, cycleEvents_filter, isProto]
      · subst htr1
        rw [if_neg hcl]
        simp [List.filter_append, hf2, hf3, hf5, cycleEvents_filter, isProto,
          List.filter_cons]

/-- Concrete instantiation of C2 on the all-success detach of the attached
state. -/
theorem C2_commit_protocol_order_witness :
    ∃ tr vg2, lv_cache_remove 2 okR vgAtt 1 = some (tr, vg2, none) ∧
      cosScan 1 false tr = true ∧
      (∃ pn pid, okR.policyName = some pn ∧
        tr.filter isProto =
          (if pn = cleanerStr then [] else cycleEvents 1) ++ cycleEvents 1 ++
            [Event.resumeLV pid true]) := by
  have h := C2_commit_protocol_order 2 okR vgAtt 1 _ _ _ rfl
  exact ⟨_, _, rfl, h.1, h.2 rfl⟩

/-! ### Attach success characterization -/

theorem VG.set_set (vg : VG) (i : Nat) (a b : LV) :
    (vg.set i a).set i b = vg.set i b := by
  unfold VG.set
  congr 1
  simp [List.filter_cons, List.filter_filter]

theorem bool_or4_false {a b c d : Bool} (h : (a || b || c || d) = false) :
    a = false ∧ b = false ∧ c = false ∧ d = false := by
  simp only [Bool.or_eq_false_iff] at h
  exact ⟨h.1.1.1, h.1.1.2, h.1.2, h.2⟩

/-- Full characterization of a successful `lv_cache_create`: the returned id
is the origin's, the preconditions held, the three ids are distinct, the
trace is the three lookups, and the resulting state is the origin re-rooted
as a CACHE volume with a single "cache" segment over the new hidden layer,
the layer holding the origin's old segments, and the pool back-referencing
the cache volume. -/
theorem create_ok_spec (o : COracle) (vg : VG) (poolId originId newId : Nat)
    (tr : List Event) (vg1 : VG) (cid : Nat)
    (h : lv_cache_create o vg poolId originId newId = (tr, vg1, some cid)) :
    cid = originId ∧
    ∃ pool origin, vg.find poolId = some pool ∧ vg.find originId = some origin ∧
      vg.find newId = none ∧
      lv_is_cache_pool pool = true ∧ lv_is_cache_type origin = false ∧
      ¬ originId = newId ∧ ¬ poolId = originId ∧ ¬ poolId = newId ∧
      tr = [Event.getSegtype cacheStr true, Event.insertLayer true,
            Event.attachPool true] ∧
      vg1 = ((vg.set newId
              { name := origin.name ++ corigStr,
                status := { visible := false },
                segments := origin.segments,
                le_count := origin.le_count,
                segs_using := [originId] }).set originId
              { origin with
                status := { origin.status with cache := true },
                segments := [{ segtype := some cacheStr,
                               len := origin.le_count,
                               pool_lv := some poolId,
                               areas := [newId] }] }).set poolId
              { pool with segs_using := pool.segs_using ++ [originId] } := by
  unfold lv_cache_create at h
  split at h
  · rename_i pool origin hpool horig
    split at h
    · exact absurd (congrArg (fun p => p.2.2) h) (by simp)
    · rename_i hcp
      split at h
      · exact absurd (congrArg (fun p => p.2.2) h) (by simp)
      · rename_i hct
        split at h
        · exact absurd (congrArg (fun p => p.2.2) h) (by simp)
        · rename_i hseg
          split at h
          · exact absurd (congrArg (fun p => p.2.2) h) (by simp)
          · rename_i hins
            split at h
            · exact absurd (congrArg (fun p => p.2.2) h) (by simp)
            · rename_i vgIns hInsEq
              obtain ⟨lvw, hfdo, hnew, hvgIns⟩ :=
                insert_layer_for_lv_spec vg originId newId corigStr vgIns hInsEq
              have hlvw : lvw = origin := Option.some.inj (hfdo.symm.trans horig)
              subst hlvw
              split at h
              · exact absurd (congrArg (fun p => p.2.2) h) (by simp)
              · rename_i clv hfdc
                have hclv : clv =
                    { lvw with
                      status := { lvw.status with cache := true },
                      segments := [{ segtype := some stripedStr,
                                     len := lvw.le_count,
                                     areas := [newId] }] } := by
                  rw [hvgIns, VG.find_set, if_pos rfl] at hfdc
                  exact (Option.some.inj hfdc).symm
                split at h
                · rename_i hsegnil
                  rw [hclv] at hsegnil
                  exact absurd hsegnil (by simp)
                · rename_i s rest hsegcons
                  rw [hclv] at hsegcons
                  obtain ⟨hs, hrest⟩ := List.cons.inj hsegcons.symm
                  subst hclv
                  subst hs
                  subst hrest
                  dsimp only at h
                  split at h
                  · exact absurd (congrArg (fun p => p.2.2) h) (by simp)
                  · rename_i hattok
                    split at h
                    · exact absurd (congrArg (fun p => p.2.2) h) (by simp)
                    · rename_i vg3 hAttEq
                      obtain ⟨lv2, s2, rest2, poolF, hfd2, hsg2, hfp2, hvg3⟩ :=
                        attach_pool_lv_spec _ originId poolId vg3 hAttEq
                      have hcp2 : lv_is_cache_pool pool = true := by
                        simpa using hcp
                      have hct2 : lv_is_cache_type lvw = false := by
                        simpa using hct
                      have h4 := bool_or4_false
                        (show (lvw.status.cache || lvw.status.cache_pool ||
                          lvw.status.cache_pool_data ||
                          lvw.status.cache_pool_metadata) = false from hct2)
                      have hon : ¬ originId = newId := by
                        intro he; rw [he, hnew] at hfdo; exact Option.noConfusion hfdo
                      have hpo : ¬ poolId = originId := by
                        intro he
                        rw [he, horig] at hpool
                        have hpe : lvw = pool := Option.some.inj hpool
                        rw [← hpe] at hcp2
                        rw [lv_is_cache_pool] at hcp2
                        rw [h4.2.1] at hcp2
                        exact Bool.noConfusion hcp2
                      have hpn : ¬ poolId = newId := by
                        intro he; rw [he, hnew] at hpool; exact Option.noConfusion hpool
                      have hlv2 : lv2 =
                          { lvw with
                            status := { lvw.status with cache := true },
                            segments := [{ segtype := some cacheStr,
                                           len := lvw.le_count,
                                           areas := [newId] }] } := by
                        rw [VG.find_set, if_pos rfl] at hfd2
                        exact (Option.some.inj hfd2).symm
                      rw [hlv2] at hsg2
                      obtain ⟨hs2, hrest2⟩ := List.cons.inj hsg2.symm
                      have hpoolF : poolF = pool := by
                        rw [VG.find_set, if_neg hpo] at hfp2
                        rw [hvgIns, VG.find_set, if_neg hpo, VG.find_set,
                          if_neg hpo, VG.find_set, if_neg hpn, hpool] at hfp2
                        exact (Option.some.inj hfp2).symm
                      simp only [Prod.mk.injEq, Option.some.injEq] at h
                      obtain ⟨htr, hvg1, hcid⟩ := h
                      refine ⟨hcid.symm, pool, lvw, hpool, hfdo, hnew, hcp2, hct2,
                        hon, hpo, hpn, htr.symm, ?_⟩
                      rw [← hvg1, hvg3, hpoolF, hvgIns]
                      rw [hlv2, hs2, hrest2]
                      simp only [VG.set_set]
  · exact absurd (congrArg (fun p => p.2.2) h) (by simp)

/-! ### Claim C5 -/

theorem VG.find_mem (vg : VG) (i : Nat) (lv : LV) (h : vg.find i = some lv) :
    (i, lv) ∈ vg.lvs := by
  unfold VG.find at h
  rcases hf : vg.lvs.find? (fun p => p.1 == i) with - | p
  · rw [hf] at h; exact Option.noConfusion h
  · rw [hf] at h
    have hm := List.mem_of_find?_eq_some hf
    have hp := List.find?_some hf
    obtain ⟨p1, p2⟩ := p
    have h2 : p2 = lv := by simpa using h
    have hp2 : p1 = i := by simpa using hp
    rw [← h2, ← hp2]
    exact hm

/-- C5: postconditions of a successful attach: the returned volume is the
origin's object (same id, same external name), it is CACHE-tagged, its
segment list is a single "cache" segment whose sub-volume 0 is the new
hidden layer, that layer carries the origin's name with the "_corig" suffix,
is hidden, and holds the origin's original segments; the pool is referenced
exactly once (the cache segment holds the only pool reference in the group
when none existed before); and the attach performed no metadata write, no
commit, no suspend and no resume. -/
theorem C5_attach_postconditions (o : COracle) (vg : VG)
    (poolId originId newId : Nat) (tr : List Event) (vg1 : VG) (cid : Nat)
    (h : lv_cache_create o vg poolId originId newId = (tr, vg1, some cid)) :
    cid = originId ∧
    (∀ e ∈ tr, isProto e = false) ∧
    ∃ origin pool, vg.find originId = some origin ∧ vg.find poolId = some pool ∧
      ∃ clv layer,
        vg1.find cid = some clv ∧
        clv.name = origin.name ∧
        lv_is_cache clv = true ∧
        clv.segments = [{ segtype := some cacheStr, len := origin.le_count,
                          pool_lv := some poolId, areas := [newId] }] ∧
        vg1.find newId = some layer ∧
        layer.name = origin.name ++ corigStr ∧
        layer.status.visible = false ∧
        layer.segments = origin.segments ∧
        ((∀ q ∈ vg.lvs, ∀ sg ∈ q.2.segments, ¬ sg.pool_lv = some poolId) →
          ∀ q ∈ vg1.lvs, ∀ sg ∈ q.2.segments, sg.pool_lv = some poolId →
            q.1 = originId ∧ q.2 = clv) := by
  obtain ⟨hcid, pool, origin, hpool, horig, hnew, -, -, hon, hpo, hpn, htr, hvg1⟩ :=
    create_ok_spec o vg poolId originId newId tr vg1 cid h
  subst hcid
  have hop : ¬ cid = poolId := fun hh => hpo hh.symm
  have hnp : ¬ newId = poolId := fun hh => hpn hh.symm
  have hno : ¬ newId = cid := fun hh => hon hh.symm
  refine ⟨rfl, ?_, origin, pool, horig, hpool, ?_⟩
  · subst htr; simp [isProto]
  · refine ⟨{ origin with
              status := { origin.status with cache := true },
              segments := [{ segtype := some cacheStr, len := origin.le_count,
                             pool_lv := some poolId, areas := [newId] }] },
            { name := origin.name ++ corigStr, status := { visible := false },
              segments := origin.segments, le_count := origin.le_count,
              segs_using := [cid] },
            ?_, rfl, rfl, rfl, ?_, rfl, rfl, rfl, ?_⟩
    · rw [hvg1, VG.find_set, if_neg hop, VG.find_set, if_pos rfl]
    · rw [hvg1, VG.find_set, if_neg hnp, VG.find_set, if_neg hno, VG.find_set,
        if_pos rfl]
    · intro hnone q hq sg hsg hpl
      rw [hvg1] at hq
      rcases (VG.mem_set _ _ _ _).mp hq with hq | ⟨hq, -⟩
      · exfalso
        subst hq
        exact hnone _ (VG.find_mem vg poolId pool hpool) sg hsg hpl
      · rcases (VG.mem_set _ _ _ _).mp hq with hq | ⟨hq, -⟩
        · subst hq
          exact ⟨rfl, rfl⟩
        · rcases (VG.mem_set _ _ _ _).mp hq with hq | ⟨hq, -⟩
          · exfalso
            subst hq
            exact hnone _ (VG.find_mem vg cid origin horig) sg hsg hpl
          · exact absurd hpl (hnone q hq sg hsg)

/-- Concrete instantiation of C5 on the witness attach. -/
theorem C5_attach_postconditions_witness :
    ∃ tr cid, lv_cache_create okC vg0 0 1 2 = (tr, vgAtt, some cid) ∧
      cid = 1 ∧ (∀ e ∈ tr, isProto e = false) := by
  have h := C5_attach_postconditions okC vg0 0 1 2 _ _ _ rfl
  exact ⟨_, _, rfl, h.1, h.2.1⟩

/-! ### Claim C3 -/

theorem graphSurgery_ok_errorSegtype (o : ROracle) (vg : VG) (cid : Nat)
    (tr : List Event) (vgx : VG) (pr : Nat × Nat)
    (h : graphSurgery o vg cid = (tr, vgx, Except.ok pr)) :
    o.errorSegtypeOk = true := by
  unfold graphSurgery at h
  repeat' (first | split at h | dsimp only at h)
  all_goals simp only [Prod.mk.injEq] at h
  all_goals first
    | exact absurd h.2.2 (fun hh => Except.noConfusion hh)
    | assumption
    | simp_all [lv_add_virtual_segment]

/-- C3: for every state in which `lv_cache_create` succeeds on (pool,
origin) — which requires the pool to be a recognized cache pool and the
origin not to be cache-typed — a subsequent successful `lv_cache_remove` of
the returned cache volume (whose flush wait ends at dirty-block count zero)
restores a volume with the same id and name as the original origin, the
same total extent count, and exactly the original origin's data
segments. -/
theorem C3_attach_detach_round_trip (o1 : COracle) (fuel : Nat) (o2 : ROracle)
    (vg : VG) (poolId originId newId : Nat) (origin : LV)
    (tr1 : List Event) (vg1 : VG) (cid : Nat) (tr2 : List Event) (vg2 : VG)
    (ho : vg.find originId = some origin)
    (h1 : lv_cache_create o1 vg poolId originId newId = (tr1, vg1, some cid))
    (h2 : lv_cache_remove fuel o2 vg1 cid = some (tr2, vg2, none)) :
    cid = originId ∧
    ∃ lv2, vg2.find originId = some lv2 ∧
      lv2.name = origin.name ∧ lv2.le_count = origin.le_count ∧
      lv2.segments = origin.segments := by
  obtain ⟨hcid, pool, origin2, hpool, horig, hnew, -, -, hon, hpo, hpn, -, hvg1⟩ :=
    create_ok_spec o1 vg poolId originId newId tr1 vg1 cid h1
  subst hcid
  have horigin : origin = origin2 := Option.some.inj (ho.symm.trans horig)
  subst horigin
  have hco : ¬ cid = poolId := fun hh => hpo hh.symm
  have hnp : ¬ newId = poolId := fun hh => hpn hh.symm
  have hno : ¬ newId = cid := fun hh => hon hh.symm
  refine ⟨rfl, ?_⟩
  rcases remove_cases fuel o2 vg1 cid tr2 vg2 none h2 with
    ⟨-, -, -, hres⟩ | ⟨clv, -, -, -, -, hres⟩ | ⟨e1, -, hres⟩ |
    ⟨t1, vgP, t2, e2, -, -, -, -, hres⟩ |
    ⟨t1, vgP, t2, t3, e3, -, -, -, -, hres⟩ |
    ⟨t1, vgP, t2, t3, pid, oid, t4, ce, -, -, -, -, -, hres⟩ |
    ⟨t1, vgP, t2, t3, pid, oid, -, -, -, -, hsub⟩ |
    ⟨t1, vgP, t2, t3, vg3, pid, oid, hpp, hfl, hgs, hcc, -, -, -, -, -, hvg2, -⟩
  · exact absurd hres (by simp)
  · exact absurd hres (by simp)
  · exact absurd hres (by simp)
  · exact absurd hres (by simp)
  · exact absurd hres (by simp)
  · exact absurd hres (by simp)
  · rcases hsub with ⟨-, -, hres⟩ | ⟨-, -, -, hres⟩ | ⟨-, -, -, -, hres⟩ |
      ⟨-, -, -, -, -, hres⟩ <;> exact absurd hres (by simp)
  · -- the successful run
    have het := graphSurgery_ok_errorSegtype o2 vgP cid t3 vg3 (pid, oid) hgs
    have hfindc1 : vg1.find cid = some
        { origin with
          status := { origin.status with cache := true },
          segments := [{ segtype := some cacheStr, len := origin.le_count,
                         pool_lv := some poolId, areas := [newId] }] } := by
      rw [hvg1, VG.find_set, if_neg hco, VG.find_set, if_pos rfl]
    have hfindn1 : vg1.find newId = some
        { name := origin.name ++ corigStr, status := { visible := false },
          segments := origin.segments, le_count := origin.le_count,
          segs_using := [cid] } := by
      rw [hvg1, VG.find_set, if_neg hnp, VG.find_set, if_neg hno, VG.find_set,
        if_pos rfl]
    have hfindp1 : vg1.find poolId = some
        { pool with segs_using := pool.segs_using ++ [cid] } := by
      rw [hvg1, VG.find_set, if_pos rfl]
    rcases policyPhase_cases o2 vg1 cid t1 vgP none hpp with
      ⟨-, -, -, hr⟩ | ⟨pn, -, -, -, hvgP, -⟩ | ⟨pn, -, -, -, -, hr⟩ |
      ⟨pn, clvP, sP, restP, -, -, hfdP, hsgP, -, hvgP, -⟩
    · exact absurd hr.symm (by simp)
    · -- policy already "cleaner": surgery input is vg1 itself
      have hPc : vgP.find cid = some
          { origin with
            status := { origin.status with cache := true },
            segments := [{ segtype := some cacheStr, len := origin.le_count,
                           pool_lv := some poolId, areas := [newId] }] } := by
        rw [hvgP]; exact hfindc1
      have hPn : vgP.find newId = some
          { name := origin.name ++ corigStr, status := { visible := false },
            segments := origin.segments, le_count := origin.le_count,
            segs_using := [cid] } := by
        rw [hvgP]; exact hfindn1
      have hPp : vgP.find poolId = some
          { pool with segs_using := pool.segs_using ++ [cid] } := by
        rw [hvgP]; exact hfindp1
      obtain ⟨-, hok, hfc, -, -, -⟩ :=
        graphSurgery_ok_finds o2 vgP cid _ _ [] poolId newId _ _
          hPc rfl rfl rfl hPn hPp (by simp) (by simp) het hon hco hnp
      rw [hgs] at hok hfc
      have hids : poolId = pid ∧ newId = oid := by
        simp only [Except.ok.injEq, Prod.mk.injEq] at hok
        exact ⟨hok.1.symm, hok.2.symm⟩
      obtain ⟨hpid1, hoid1⟩ := hids
      subst hpid1
      subst hoid1
      have hrm : vg2.find cid = vg3.find cid := by
        rw [hvg2]
        unfold lv_remove
        rw [VG.find_removeLV, if_neg hon]
      exact ⟨_, hrm.trans hfc, rfl, rfl, rfl⟩
    · exact absurd hr.symm (by simp)
    · -- policy swapped to "cleaner" first
      have hclvP : clvP =
          { origin with
            status := { origin.status with cache := true },
            segments := [{ segtype := some cacheStr, len := origin.le_count,
                           pool_lv := some poolId, areas := [newId] }] } := by
        rw [hfindc1] at hfdP
        exact (Option.some.inj hfdP).symm
      rw [hclvP] at hsgP
      obtain ⟨hsP, hrestP⟩ := List.cons.inj hsgP.symm
      have hPc : vgP.find cid = some
          { clvP with segments :=
              { sP with policy_name := some cleanerStr, policy_argc := 0,
                        policy_argv := [] } :: restP } := by
        rw [hvgP, VG.find_set, if_pos rfl]
      have hPn : vgP.find newId = some
          { name := origin.name ++ corigStr, status := { visible := false },
            segments := origin.segments, le_count := origin.le_count,
            segs_using := [cid] } := by
        rw [hvgP, VG.find_set, if_neg hno]; exact hfindn1
      have hPp : vgP.find poolId = some
          { pool with segs_using := pool.segs_using ++ [cid] } := by
        rw [hvgP, VG.find_set, if_neg (fun hh => hco hh.symm)]; exact hfindp1
      obtain ⟨-, hok, hfc, -, -, -⟩ :=
        graphSurgery_ok_finds o2 vgP cid _ _ restP poolId newId _ _
          hPc rfl (by simp [hsP]) (by simp [hsP]) hPn hPp (by simp) (by simp)
          het hon hco hnp
      rw [hgs] at hok hfc
      have hids : poolId = pid ∧ newId = oid := by
        simp only [Except.ok.injEq, Prod.mk.injEq] at hok
        exact ⟨hok.1.symm, hok.2.symm⟩
      obtain ⟨hpid1, hoid1⟩ := hids
      subst hpid1
      subst hoid1
      have hrm : vg2.find cid = vg3.find cid := by
        rw [hvg2]
        unfold lv_remove
        rw [VG.find_removeLV, if_neg hon]
      refine ⟨_, hrm.trans hfc, ?_, rfl, rfl⟩
      rw [hclvP]

/-- Witness: on the concrete two-volume group, attaching pool 0 to origin 1
and then removing the cache succeeds and restores a volume with the
original origin's name, extent count and segments. -/
theorem C3_attach_detach_round_trip_witness :
    ∃ tr1 vg1 tr2 vg2,
      vg0.find 1 = some originLV ∧
      lv_cache_create okC vg0 0 1 2 = (tr1, vg1, some 1) ∧
      lv_cache_remove 2 okR vg1 1 = some (tr2, vg2, none) ∧
      (1 = 1 ∧ ∃ lv2, vg2.find 1 = some lv2 ∧
        lv2.name = originLV.name ∧ lv2.le_count = originLV.le_count ∧
        lv2.segments = originLV.segments) :=
  ⟨_, _, _, _, rfl, rfl, rfl,
   C3_attach_detach_round_trip okC 2 okR vg0 0 1 2 originLV _ _ 1 _ _
     rfl rfl rfl⟩

/-! ### Claim C4 -/

/-- C4: for every successful detach run on a cache volume whose single
cache segment points at pool `pid` and hidden origin `oid`, the graph
surgery produces an intermediate state in which the top-level volume keeps
its name, has its CACHE status bit cleared and owns exactly the hidden
origin's data segments and extent count; the hidden volume carries a single
"error" placeholder segment spanning its full extent count; the pool is
still present but no longer referenced by the cache volume; and the final
state removes the hidden volume, so it no longer exists. -/
theorem C4_detach_graph_surgery (fuel : Nat) (o2 : ROracle) (vg1 : VG)
    (cid : Nat) (clv : LV) (cseg : LVSeg) (pid oid : Nat) (olv pool : LV)
    (tr2x : List Event) (vg2 : VG)
    (hc : vg1.find cid = some clv) (hs : clv.segments = [cseg])
    (hpl : cseg.pool_lv = some pid) (hhd : cseg.areas.head? = some oid)
    (ho : vg1.find oid = some olv) (hp : vg1.find pid = some pool)
    (hmp : cid ∈ pool.segs_using) (hmo : cid ∈ olv.segs_using)
    (hnd : pool.segs_using.Nodup)
    (hco : ¬ cid = oid) (hcp : ¬ cid = pid) (hop : ¬ oid = pid)
    (h2 : lv_cache_remove fuel o2 vg1 cid = some (tr2x, vg2, none)) :
    ∃ vg3,
      (∃ lv2, vg3.find cid = some lv2 ∧ lv2.name = clv.name ∧
        lv2.status.cache = false ∧ lv2.segments = olv.segments ∧
        lv2.le_count = olv.le_count) ∧
      (∃ hlv, vg3.find oid = some hlv ∧
        hlv.segments = [{ segtype := some errorStr, len := olv.le_count }]) ∧
      (∃ pool2, vg3.find pid = some pool2 ∧ ¬ cid ∈ pool2.segs_using) ∧
      vg2 = lv_remove vg3 oid ∧ vg2.find oid = none := by
  rcases remove_cases fuel o2 vg1 cid tr2x vg2 none h2 with
    ⟨-, -, -, hres⟩ | ⟨clvx, -, -, -, -, hres⟩ | ⟨e1, -, hres⟩ |
    ⟨t1, vgP, t2, e2, -, -, -, -, hres⟩ |
    ⟨t1, vgP, t2, t3, e3, -, -, -, -, hres⟩ |
    ⟨t1, vgP, t2, t3, pid2, oid2, t4, ce, -, -, -, -, -, hres⟩ |
    ⟨t1, vgP, t2, t3, pid2, oid2, -, -, -, -, hsub⟩ |
    ⟨t1, vgP, t2, t3, vg3, pid2, oid2, hpp, hfl, hgs, hcc, -, -, -, -, -, hvg2, -⟩
  · exact absurd hres (by simp)
  · exact absurd hres (by simp)
  · exact absurd hres (by simp)
  · exact absurd hres (by simp)
  · exact absurd hres (by simp)
  · exact absurd hres (by simp)
  · rcases hsub with ⟨-, -, hres⟩ | ⟨-, -, -, hres⟩ | ⟨-, -, -, -, hres⟩ |
      ⟨-, -, -, -, -, hres⟩ <;> exact absurd hres (by simp)
  · -- the successful run
    have het := graphSurgery_ok_errorSegtype o2 vgP cid t3 vg3 (pid2, oid2) hgs
    rcases policyPhase_cases o2 vg1 cid t1 vgP none hpp with
      ⟨-, -, -, hr⟩ | ⟨pn, -, -, -, hvgP, -⟩ | ⟨pn, -, -, -, -, hr⟩ |
      ⟨pn, clvP, sP, restP, -, -, hfdP, hsgP, -, hvgP, -⟩
    · exact absurd hr.symm (by simp)
    · -- policy already "cleaner": surgery input is vg1 itself
      have hPc : vgP.find cid = some clv := by rw [hvgP]; exact hc
      have hPo : vgP.find oid = some olv := by rw [hvgP]; exact ho
      have hPp : vgP.find pid = some pool := by rw [hvgP]; exact hp
      obtain ⟨-, hok, hfc, hfo, hfp, -⟩ :=
        graphSurgery_ok_finds o2 vgP cid clv cseg [] pid oid olv pool
          hPc hs hpl hhd hPo hPp hmp hmo het hco hcp hop
      rw [hgs] at hok hfc hfo hfp
      have hoidx : oid2 = oid := by
        simp only [Except.ok.injEq, Prod.mk.injEq] at hok
        exact hok.2
      rw [hoidx] at hvg2
      refine ⟨vg3, ⟨_, hfc, rfl, rfl, rfl, rfl⟩, ⟨_, hfo, rfl⟩,
        ⟨_, hfp, fun hmem => ((List.Nodup.mem_erase_iff hnd).1 hmem).1 rfl⟩,
        hvg2, ?_⟩
      rw [hvg2]
      unfold lv_remove
      rw [VG.find_removeLV, if_pos rfl]
    · exact absurd hr.symm (by simp)
    · -- policy swapped to "cleaner" first
      have hclvP : clvP = clv := Option.some.inj (hfdP.symm.trans hc)
      rw [hclvP, hs] at hsgP
      obtain ⟨hsP, hrestP⟩ := List.cons.inj hsgP.symm
      subst hsP
      subst hrestP
      rw [hclvP] at hvgP
      have hPc : vgP.find cid = some
          { clv with segments :=
              [{ sP with policy_name := some cleanerStr, policy_argc := 0,
                         policy_argv := [] }] } := by
        rw [hvgP, VG.find_set, if_pos rfl]
      have hPo : vgP.find oid = some olv := by
        rw [hvgP, VG.find_set, if_neg (fun hh => hco hh.symm)]; exact ho
      have hPp : vgP.find pid = some pool := by
        rw [hvgP, VG.find_set, if_neg (fun hh => hcp hh.symm)]; exact hp
      obtain ⟨-, hok, hfc, hfo, hfp, -⟩ :=
        graphSurgery_ok_finds o2 vgP cid _ _ [] pid oid olv pool
          hPc rfl hpl hhd hPo hPp hmp hmo het hco hcp hop
      rw [hgs] at hok hfc hfo hfp
      have hoidx : oid2 = oid := by
        simp only [Except.ok.injEq, Prod.mk.injEq] at hok
        exact hok.2
      rw [hoidx] at hvg2
      refine ⟨vg3, ⟨_, hfc, rfl, rfl, rfl, rfl⟩, ⟨_, hfo, rfl⟩,
        ⟨_, hfp, fun hmem => ((List.Nodup.mem_erase_iff hnd).1 hmem).1 rfl⟩,
        hvg2, ?_⟩
      rw [hvg2]
      unfold lv_remove
      rw [VG.find_removeLV, if_pos rfl]

/-- Witness: a successful removal of the concrete attached cache volume
passes through an intermediate state with the segments moved back, the
error placeholder on the hidden volume, the pool present but unreferenced,
and the hidden volume gone from the final state. -/
theorem C4_detach_graph_surgery_witness :
    ∃ tr2x vg2, lv_cache_remove 2 okR vgAtt 1 = some (tr2x, vg2, none) ∧
      ∃ vg3,
        (∃ lv2, vg3.find 1 = some lv2 ∧ lv2.name = originName ∧
          lv2.status.cache = false ∧
          lv2.segments = [{ segtype := some stripedStr, len := 10 }] ∧
          lv2.le_count = 10) ∧
        (∃ hlv, vg3.find 2 = some hlv ∧
          hlv.segments = [{ segtype := some errorStr, len := 10 }]) ∧
        (∃ pool2, vg3.find 0 = some pool2 ∧ ¬ 1 ∈ pool2.segs_using) ∧
        vg2 = lv_remove vg3 2 ∧ vg2.find 2 = none :=
  ⟨_, _, rfl,
   C4_detach_graph_surgery 2 okR vgAtt 1 _ _ 0 2 _ _ _ _
     rfl rfl rfl rfl rfl rfl (by decide) (by decide) (by decide)
     (by decide) (by decide) (by decide) rfl⟩

end CacheManip
